import Mathlib

/-!
Verification development for the lisa work-loop orchestration engine.

Python strings are modelled as `List Char` (`PyStr`); Python's `str`
methods used by the code under study (`split`, `strip`, `startswith`,
slicing, `int(...)`, `str.isdigit`) are given executable models below.
External effects (the generation backend, subprocesses, git) are
modelled as explicit parameters or oracles passed to the embedded
functions.
-/

set_option maxRecDepth 10000

abbrev PyStr := List Char

/-- Data of a Lean string literal, used to write `PyStr` constants. -/
def pys (s : String) : PyStr := s.data

/-- Python `str` whitespace test (the ASCII whitespace actually relevant here). -/
def isPySpace (c : Char) : Bool :=
  c == ' ' || c == '\t' || c == '\n' || c == '\r' || c == '\x0b' || c == '\x0c'

/-- Python `s.lstrip()`. -/
def stripLeft (s : PyStr) : PyStr := s.dropWhile isPySpace

/-- Python `s.rstrip()`. -/
def stripRight (s : PyStr) : PyStr := (s.reverse.dropWhile isPySpace).reverse

/-- Python `s.strip()`. -/
def pyStrip (s : PyStr) : PyStr := stripRight (stripLeft s)

/-- Python `s.startswith(p)` (`s` first, pattern second, as in Python). -/
def pyStartsWith : PyStr → PyStr → Bool
  | _, [] => true
  | [], _ :: _ => false
  | c :: cs, p :: ps => c == p && pyStartsWith cs ps

/-- Drop the pattern from the front of the string if it is there:
`s[len(p):]` guarded by `s.startswith(p)`. -/
def dropPre : PyStr → PyStr → Option PyStr
  | [], s => some s
  | _ :: _, [] => none
  | p :: ps, c :: cs => if c = p then dropPre ps cs else none

/-- Python `s.split(sep)` for a one-character separator: keeps empty parts,
never returns an empty list. -/
def pySplit (sep : Char) : PyStr → List PyStr
  | [] => [[]]
  | c :: cs =>
    if c = sep then [] :: pySplit sep cs
    else
      match pySplit sep cs with
      | [] => [[c]]
      | h :: t => (c :: h) :: t

/-- Python `s.split(sep, 1)[1]` when the separator occurs (text after the
first occurrence of `sep`), else `none`. -/
def pySplitOnceTail (sep : Char) : PyStr → Option PyStr
  | [] => none
  | c :: cs => if c = sep then some cs else pySplitOnceTail sep cs

/-- Python `str.isdigit` restricted to ASCII (the only digits the code
under study ever produces). -/
def pyIsDigit (s : PyStr) : Bool := !s.isEmpty && s.all Char.isDigit

/-- Decimal value of a digit string (`foldl`, most significant first). -/
def fromDec (s : PyStr) : Nat := s.foldl (fun a c => 10 * a + (c.toNat - 48)) 0

/-- Decimal rendering of a natural number, as Python `str(n)` produces it. -/
def toDec (n : Nat) : PyStr :=
  if _h : n < 10 then [Nat.digitChar n]
  else toDec (n / 10) ++ [Nat.digitChar (n % 10)]
decreasing_by exact Nat.div_lt_self (by omega) (by omega)

/-- Python `int(s)` on an already-stripped string: optional sign then
ASCII digits; `none` models `ValueError`. -/
def pyInt (s : PyStr) : Option Int :=
  match s with
  | '-' :: rest => if pyIsDigit rest then some (-(fromDec rest : Int)) else none
  | '+' :: rest => if pyIsDigit rest then some (fromDec rest : Int) else none
  | _ => if pyIsDigit s then some (fromDec s : Int) else none

/-- Python `"".join(line + "\n" for line in lines)`: the body shape built
by repeated `body += f"...\n"`. -/
def linesJoin (lines : List PyStr) : PyStr :=
  lines.foldr (fun l acc => l ++ '\n' :: acc) []

/-- Python `sep.join(parts)` for a string separator. -/
def pyJoin (sep : PyStr) : List PyStr → PyStr
  | [] => []
  | [x] => x
  | x :: y :: t => x ++ sep ++ pyJoin sep (y :: t)

/-!  ### `lisa/git/branch.py` — branch suffix allocation  -/

/-- From `branch.py`: `find_next_suffix(branches, base)`.  Mirrors the
source: `max_suffix` starts at 1; a branch equal to `base` contributes 1;
a branch `base-<digits>` contributes its numeric value; result is
`max_suffix + 1`. -/
def find_next_suffix (branches : List PyStr) (base : PyStr) : Nat :=
  (branches.foldl
    (fun m b =>
      if b = base then max m 1
      else
        match dropPre (base ++ ['-']) b with
        | some suffixPart => if pyIsDigit suffixPart then max m (fromDec suffixPart) else m
        | none => m)
    1) + 1

/-- Modelled from the claim's words, for comparison with the source
function: one more than the maximum numeric suffix among branches of the
form `base-<digits>`, a bare match of `base` itself counting as suffix 1. -/
def claimNextSuffix (branches : List PyStr) (base : PyStr) : Nat :=
  (branches.foldl
    (fun m b =>
      if b = base then max m 1
      else
        match dropPre (base ++ ['-']) b with
        | some suffixPart => if pyIsDigit suffixPart then max m (fromDec suffixPart) else m
        | none => m)
    0) + 1

/-- The set of numeric suffixes the claim talks about: value of each
branch of the form `base-<digits>`, plus 1 for a bare `base` match. -/
def suffixValues (branches : List PyStr) (base : PyStr) : List Nat :=
  branches.filterMap
    (fun b =>
      if b = base then some 1
      else
        match dropPre (base ++ ['-']) b with
        | some suffixPart => if pyIsDigit suffixPart then some (fromDec suffixPart) else none
        | none => none)

/-!  ### `lisa/phases/verify.py` — brace expansion and path-glob matching  -/

/-- From `verify.py` `_expand_braces`: the regex `\x7b([^}]+)\x7d` searched
left to right.  Returns the decomposition at the first position where a
brace group matches: text before the group, the group's interior
(at least one non-`\x7d` character), and the text after the closing brace. -/
def findBrace : PyStr → Option (PyStr × PyStr × PyStr)
  | [] => none
  | c :: cs =>
    if c = '\x7b' then
      let grp := cs.takeWhile (fun d => d ≠ '\x7d')
      if grp.isEmpty then
        (findBrace cs).map (fun (pre, g, suf) => (c :: pre, g, suf))
      else
        match cs.drop grp.length with
        | '\x7d' :: rest => some ([], grp, rest)
        | _ => (findBrace cs).map (fun (pre, g, suf) => (c :: pre, g, suf))
    else
      (findBrace cs).map (fun (pre, g, suf) => (c :: pre, g, suf))

/-- From `verify.py` `_expand_braces(pattern)`: expand the first
`\x7balt1,alt2,...\x7d` group; a pattern without such a group is returned
unchanged. -/
def expandBraces (pattern : PyStr) : List PyStr :=
  match findBrace pattern with
  | none => [pattern]
  | some (pre, grp, suf) => (pySplit ',' grp).map (fun alt => pre ++ alt ++ suf)

/-- Index of the first `]` in the list, if any (helper for glob
character-class scanning, mirroring `fnmatch.translate`). -/
def findCloseIdx : PyStr → Option Nat
  | [] => none
  | ']' :: _ => some 0
  | _ :: r => (findCloseIdx r).map (· + 1)

/-- Scan a glob character class after the opening `[`
(`fnmatch.translate` rules: a leading `!` negates; a `]` directly after
that is a literal member; an unclosed class makes `[` literal).
Returns (negated, class body, characters consumed). -/
def scanClass (ps : PyStr) : Option (Bool × PyStr × Nat) :=
  match ps with
  | '!' :: q =>
    (match q with
     | ']' :: r => (findCloseIdx r).map (fun i => (true, ']' :: r.take i, i + 3))
     | _ => (findCloseIdx q).map (fun i => (true, q.take i, i + 2)))
  | _ =>
    match ps with
    | ']' :: r => (findCloseIdx r).map (fun i => (false, ']' :: r.take i, i + 2))
    | _ => (findCloseIdx ps).map (fun i => (false, ps.take i, i + 1))

/-- Membership of a character in a glob class body, with `a-z` ranges. -/
def inClass (c : Char) : PyStr → Bool
  | x :: '-' :: y :: rest => (x ≤ c && c ≤ y) || inClass c rest
  | x :: rest => x == c || inClass c rest
  | [] => false

/-- `fnmatch.fnmatch(s, p)` on POSIX: full-string glob match with `*`,
`?` and `[...]` classes. -/
def globMatch : PyStr → PyStr → Bool
  | [], s => s.isEmpty
  | '*' :: ps, s =>
    globMatch ps s ||
      (match s with
       | [] => false
       | _ :: s' => globMatch ('*' :: ps) s')
  | '?' :: ps, s =>
    (match s with
     | [] => false
     | _ :: s' => globMatch ps s')
  | '[' :: ps, s =>
    (match scanClass ps with
     | none =>
       -- unclosed class: `[` is a literal character
       (match s with
        | [] => false
        | d :: s' => '[' == d && globMatch ps s')
     | some (neg, body, k) =>
       (match s with
        | [] => false
        | d :: s' => (inClass d body != neg) && globMatch (ps.drop k) s'))
  | c :: ps, s =>
    (match s with
     | [] => false
     | d :: s' => c == d && globMatch ps s')
termination_by p s => (p.length, s.length)
decreasing_by
  all_goals simp_wf
  all_goals first
    | (left; omega)
    | (right; omega)

/-- A configured test/format command as read from the YAML config dict:
`name`, `run`, and the optional `paths` glob list (`cmd.get("paths", [])`,
so a missing key is the empty list). -/
structure TestCommand where
  name : PyStr
  run : PyStr
  paths : List PyStr

/-- From `verify.py` `should_run_command(cmd, changed_files)`:
no paths = always run; otherwise run iff any changed file matches any
brace-expanded glob. -/
def should_run_command (cmd : TestCommand) (changed_files : List PyStr) : Bool :=
  if cmd.paths.isEmpty then true
  else
    let expanded := cmd.paths.flatMap expandBraces
    changed_files.any (fun f => expanded.any (fun p => globMatch p f))

/-!  ### `lisa/phases/verify.py` — the verification engine

`verify_step` drives three kinds of external calls (the
completion-check backend call, `run_test_phase`, and the lightweight
`run_review_phase`); these are modelled as an oracle environment: the
k-th call of each kind returns the oracle's value at k.  The embedding
also counts the calls actually made, so bounds on calls can be stated. -/

/-- From `phases/constants.py`: `MAX_FIX_ATTEMPTS = 4`. -/
def MAX_FIX_ATTEMPTS : Nat := 4

/-- From `phases/constants.py`: `MAX_ISSUE_REPEATS = 3`. -/
def MAX_ISSUE_REPEATS : Nat := 3

/-- From `models/results.py`: `TestFailure`. -/
structure TestFailure where
  command_name : PyStr
  output : PyStr
  summary : PyStr := []
  failed_tests : List PyStr := []

/-- Result dict of a lightweight `run_review_phase` call, as returned to
`verify_step`: `approved`, `findings` (always empty in lightweight mode)
and a `summary` already truncated by the review phase. -/
structure LightReview where
  approved : Bool
  findings : List PyStr := []
  summary : PyStr

/-- The completion-check backend response as parsed from JSON:
`complete` / `missing` are `none` when the key is absent (or JSON null
for `missing`). -/
structure CompletionDict where
  complete : Option Bool
  missing : Option PyStr

/-- From `models/results.py`: `VerifyResult` with its dataclass defaults. -/
structure VerifyResult where
  passed : Bool
  test_errors : List PyStr := []
  review_issues : List PyStr := []
  completion_issues : List PyStr := []
  fix_attempts : Nat := 0
deriving Repr, DecidableEq

/-- Oracle environment for one `verify_step` call: the parsed
completion-check response (`none` = the backend output was not valid
JSON), the result of the k-th `run_test_phase` call, and the result of
the k-th lightweight `run_review_phase` call. -/
structure VerifyEnv where
  completionRaw : Option CompletionDict
  testPhase : Nat → Option TestFailure
  review : Nat → LightReview

/-- Call counters instrumenting the embedding (not part of the source):
how many test-phase runs, review calls, test-fix prompts and review-fix
prompts `verify_step` performed. -/
structure VStats where
  testCalls : Nat := 0
  reviewCalls : Nat := 0
  testFixCalls : Nat := 0
  reviewFixCalls : Nat := 0
  completionCalls : Nat := 0

/-- Pointwise sum of call counters. -/
def vsAdd (a b : VStats) : VStats :=
  ⟨a.testCalls + b.testCalls, a.reviewCalls + b.reviewCalls,
   a.testFixCalls + b.testFixCalls, a.reviewFixCalls + b.reviewFixCalls,
   a.completionCalls + b.completionCalls⟩

/-- From `verify.py` `run_completion_check`: the backend response is the
parsed JSON dict, except that an unparseable response is treated as
`{"complete": True, "missing": None}`. -/
def run_completion_check (raw : Option CompletionDict) : CompletionDict :=
  match raw with
  | some d => d
  | none => { complete := some true, missing := none }

/-- From `verify.py` `verify_step`, the test-fix loop
(`for fix_attempt in range(MAX_FIX_ATTEMPTS)`): while the previous test
phase failed and fuel remains, issue one fix prompt and re-run the test
phase.  Arguments: next test-call index, current test result, remaining
attempts.  Returns (final test result, next test-call index, fix calls
made). -/
def testFixLoop (env : VerifyEnv) (tIdx : Nat) (tf : Option TestFailure) :
    Nat → Option TestFailure × Nat × Nat
  | 0 => (tf, tIdx, 0)
  | n + 1 =>
    match tf with
    | none => (none, tIdx, 0)
    | some _ =>
      match testFixLoop env (tIdx + 1) (env.testPhase tIdx) n with
      | (tf', idx', fixes) => (tf', idx', fixes + 1)

/-- From `verify.py` `verify_step`, the review-fix loop
(`for attempt in range(MAX_FIX_ATTEMPTS)`): lightweight review; on
approval return passed; otherwise count the 100-char-truncated summary,
return immediately once a summary reaches `MAX_ISSUE_REPEATS`
occurrences, else record the issue, fix, re-run the test phase with its
own fix loop, and continue.  `attempt` is the 0-based loop index, the
last argument the remaining attempts. -/
def reviewLoop (env : VerifyEnv) (tIdx rIdx attempt : Nat) (issues : List PyStr)
    (counts : PyStr → Nat) : Nat → VerifyResult × VStats
  | 0 => ({ passed := false, review_issues := issues, fix_attempts := MAX_FIX_ATTEMPTS }, {})
  | n + 1 =>
    let r := env.review rIdx
    if r.approved then
      ({ passed := true, fix_attempts := attempt, review_issues := issues },
       { reviewCalls := 1 })
    else
      let issue := r.summary.take 100
      let cnt := counts issue + 1
      if MAX_ISSUE_REPEATS ≤ cnt then
        ({ passed := false, review_issues := issues ++ [issue], fix_attempts := attempt + 1 },
         { reviewCalls := 1 })
      else
        let issues' := issues ++ [issue]
        let counts' := fun t => if t = issue then cnt else counts t
        match testFixLoop env (tIdx + 1) (env.testPhase tIdx) MAX_FIX_ATTEMPTS with
        | (some f, _, tfix) =>
          ({ passed := false, test_errors := [f.summary], fix_attempts := attempt + 1,
             review_issues := issues' },
           { reviewCalls := 1, reviewFixCalls := 1, testCalls := 1 + tfix,
             testFixCalls := tfix })
        | (none, tIdx', tfix) =>
          match reviewLoop env tIdx' (rIdx + 1) (attempt + 1) issues' counts' n with
          | (res, st) =>
            (res, vsAdd { reviewCalls := 1, reviewFixCalls := 1, testCalls := 1 + tfix,
                          testFixCalls := tfix } st)

/-- From `verify.py` `verify_step` after the completion check: initial
test phase, test-fix loop, then (only if tests pass) the review-fix
loop. -/
def verifyMain (env : VerifyEnv) : VerifyResult × VStats :=
  match testFixLoop env 1 (env.testPhase 0) MAX_FIX_ATTEMPTS with
  | (some f, _, tfix) =>
    ({ passed := false, test_errors := [f.summary] },
     { testCalls := 1 + tfix, testFixCalls := tfix })
  | (none, tIdx', tfix) =>
    match reviewLoop env tIdx' 0 0 [] (fun _ => 0) MAX_FIX_ATTEMPTS with
    | (res, st) => (res, vsAdd { testCalls := 1 + tfix, testFixCalls := tfix } st)

/-- From `verify.py` `verify_step(step_desc, ..., step_id, ...)`:
when `step_id` and `step_desc` are truthy, run the completion check and
return `completion_issues` immediately if the goal was not achieved;
otherwise run tests (with fix loop) and the review loop. -/
def verify_step (env : VerifyEnv) (step_id : Nat) (step_desc : PyStr) :
    VerifyResult × VStats :=
  if step_id ≠ 0 ∧ step_desc ≠ [] then
    let completion := run_completion_check env.completionRaw
    if completion.complete.getD true = false then
      ({ passed := false, completion_issues := [completion.missing.getD (pys "unknown")] },
       { completionCalls := 1 })
    else
      match verifyMain env with
      | (res, st) => (res, vsAdd { completionCalls := 1 } st)
  else verifyMain env

/-!  ### `lisa/phases/work.py` — the work-loop state machine

`handle_verify_step` calls the verification engine; the engine's result
is passed to the embedded handler as an argument.  `handle_commit_changes`
shells out to git and to the backend for the short commit summary; the
changed-file lists and the summary are passed as arguments. -/

/-- From `models/state.py`: `WorkState`. -/
inductive WorkState where
  | SELECT_STEP
  | EXECUTE_WORK
  | HANDLE_ASSUMPTIONS
  | CHECK_COMPLETION
  | VERIFY_STEP
  | COMMIT_CHANGES
  | SAVE_STATE
  | ALL_DONE
  | FINAL_REVIEW
  | MAX_ITERATIONS
deriving DecidableEq, Repr

/-- From `models/core.py`: `Assumption`. -/
structure Assumption where
  id : PyStr
  selected : Bool
  statement : PyStr
  rationale : PyStr := []
deriving DecidableEq, Repr

/-- A planned file-operation dict on a step (`op`, `path`, optional
`template` / `detail`, absent keys modelled as the empty string). -/
structure FileEntry where
  op : PyStr
  path : PyStr
  template : PyStr := []
  detail : PyStr := []
deriving DecidableEq, Repr

/-- A plan-step dict: `id`, `description`, optional `ticket`
(empty = absent), `done` flag, optional `files`. -/
structure PlanStep where
  id : Nat
  description : PyStr
  ticket : PyStr := []
  done : Bool := false
  files : List FileEntry := []
deriving DecidableEq, Repr

/-- From `models/state.py`: the per-iteration `iter_state` dict entries
used by the verify/commit handlers. -/
structure IterState where
  files_before : List PyStr := []
  files_changed : List PyStr := []
  test_errors : List PyStr := []
  review_issues : List PyStr := []
  fixes_applied : List PyStr := []

/-- From `models/state.py`: the `WorkContext` fields read or written by
`handle_verify_step` and `handle_commit_changes` (`skip_verify` stands
for `ctx.config.skip_verify`). -/
structure WorkContext where
  plan_steps : List PlanStep
  current_step : Option Nat
  step_desc : PyStr
  commit_ticket : PyStr
  iteration : Nat
  assumptions : List Assumption
  last_test_error : Option PyStr
  last_review_issues : Option PyStr
  last_completion_issues : Option PyStr
  iter_state : IterState
  tests_passed : Bool
  step_done : Bool
  review_status : PyStr
  verify_attempts : Nat
  max_verify_attempts : Nat := 3
  skip_verify : Bool

/-- The `for step in ctx.plan_steps: if step["id"] == ctx.current_step:
step["done"] = True; break` loop: mark the first step whose id equals
the current-step pointer as done. -/
def markStepDone (steps : List PlanStep) (cur : Option Nat) : List PlanStep :=
  match steps with
  | [] => []
  | s :: rest =>
    if some s.id = cur then { s with done := true } :: rest
    else s :: markStepDone rest cur

/-- From `work.py` `handle_verify_step(ctx)`, with the engine's
`VerifyResult` passed in: skip-verify and pass clear all failure
signals, reset the retry counter and mark the step done; a failure
increments `verify_attempts`, stores exactly one failure signal
(completion > test > review precedence) and either retries from
`EXECUTE_WORK` (incremented count still below `max_verify_attempts`) or
proceeds to `COMMIT_CHANGES`. -/
def handle_verify_step (ctx : WorkContext) (verify : VerifyResult) :
    WorkContext × WorkState :=
  if ctx.skip_verify then
    ({ ctx with
        tests_passed := true
        last_test_error := none
        last_review_issues := none
        last_completion_issues := none
        verify_attempts := 0
        plan_steps := markStepDone ctx.plan_steps ctx.current_step },
     WorkState.COMMIT_CHANGES)
  else
    let ctx1 : WorkContext :=
      { ctx with
          tests_passed := verify.passed
          iter_state :=
            { ctx.iter_state with
                test_errors := verify.test_errors
                review_issues := verify.review_issues
                fixes_applied := (List.range verify.fix_attempts).map
                  (fun i => pys "fix attempt " ++ toDec (i + 1)) } }
    if verify.passed then
      ({ ctx1 with
          review_status := pys "APPROVED"
          last_test_error := none
          last_review_issues := none
          last_completion_issues := none
          verify_attempts := 0
          plan_steps := markStepDone ctx1.plan_steps ctx1.current_step },
       WorkState.COMMIT_CHANGES)
    else
      let ctx2 : WorkContext := { ctx1 with verify_attempts := ctx1.verify_attempts + 1 }
      if ctx2.verify_attempts < ctx2.max_verify_attempts then
        if !verify.completion_issues.isEmpty then
          ({ ctx2 with
              last_completion_issues := some (pyJoin (pys "; ") verify.completion_issues)
              last_test_error := none
              last_review_issues := none },
           WorkState.EXECUTE_WORK)
        else if !verify.test_errors.isEmpty then
          ({ ctx2 with
              last_test_error := some (verify.test_errors.headD [])
              last_review_issues := none
              last_completion_issues := none },
           WorkState.EXECUTE_WORK)
        else
          ({ ctx2 with
              last_test_error := none
              last_review_issues :=
                if verify.review_issues.isEmpty then none
                else some (pyJoin (pys "; ") verify.review_issues)
              last_completion_issues := none },
           WorkState.EXECUTE_WORK)
      else
        if !verify.completion_issues.isEmpty then
          ({ ctx2 with
              review_status := pys "skipped (incomplete)"
              last_completion_issues := some (pyJoin (pys "; ") verify.completion_issues)
              last_test_error := none
              last_review_issues := none },
           WorkState.COMMIT_CHANGES)
        else if !verify.test_errors.isEmpty then
          ({ ctx2 with
              review_status := pys "skipped (tests failed)"
              last_test_error := some (verify.test_errors.headD [])
              last_review_issues := none
              last_completion_issues := none },
           WorkState.COMMIT_CHANGES)
        else
          ({ ctx2 with
              review_status :=
                pys "NEEDS_FIXES (" ++ toDec verify.fix_attempts ++ pys " attempts)"
              last_test_error := none
              last_review_issues :=
                if verify.review_issues.isEmpty then none
                else some (pyJoin (pys "; ") verify.review_issues)
              last_completion_issues := none },
           WorkState.COMMIT_CHANGES)

/-- Python `f"{ctx.current_step}"` on an `Optional[int]`. -/
def renderOptNat : Option Nat → PyStr
  | some n => toDec n
  | none => pys "None"

/-- From `work.py` `handle_commit_changes`: the commit title
`f"{fail_marker}step {ctx.current_step}: {short_desc}"` with
`fail_marker = "[FAIL] "` when `ctx.tests_passed` is false. -/
def commit_title (ctx : WorkContext) (short_desc : PyStr) : PyStr :=
  (if ctx.tests_passed then [] else pys "[FAIL] ") ++
    pys "step " ++ renderOptNat ctx.current_step ++ pys ": " ++ short_desc

/-- From `work.py` `handle_commit_changes(ctx)`, with the external
results passed in: `files_after` (changed files after the work call),
`files_after_format` (changed files after the formatters ran) and
`short_desc` (the backend's one-line summary).  Returns the new
context, the next state (always `SAVE_STATE`) and the commit title
passed to `git_commit` when a commit was attempted. -/
def handle_commit_changes (ctx : WorkContext)
    (files_after files_after_format : List PyStr) (short_desc : PyStr) :
    WorkContext × WorkState × Option PyStr :=
  let files_this_step :=
    files_after.filter (fun f => !ctx.iter_state.files_before.contains f)
  let ctx1 : WorkContext :=
    { ctx with iter_state := { ctx.iter_state with files_changed := files_this_step } }
  if files_this_step.isEmpty then
    ({ ctx1 with verify_attempts := 0 }, WorkState.SAVE_STATE, none)
  else
    -- `files_to_add` (recomputed from `files_after_format`) only selects
    -- what is staged for the git call; the commit message is `title`.
    let _files_to_add :=
      files_after_format.filter (fun f => !ctx.iter_state.files_before.contains f)
    let title := commit_title ctx1 short_desc
    ({ ctx1 with assumptions := [], verify_attempts := 0 },
     WorkState.SAVE_STATE, some title)

/-- Number of non-null failure signals in the context. -/
def signalCount (c : WorkContext) : Nat :=
  (if c.last_test_error.isSome then 1 else 0) +
  (if c.last_review_issues.isSome then 1 else 0) +
  (if c.last_completion_issues.isSome then 1 else 0)

/-- A concrete one-step context used to instantiate the state-machine
theorems. -/
def sampleCtx : WorkContext :=
  { plan_steps := [{ id := 1, description := pys "implement the endpoint" }],
    current_step := some 1,
    step_desc := pys "implement the endpoint",
    commit_ticket := pys "ENG-71",
    iteration := 1,
    assumptions := [],
    last_test_error := none, last_review_issues := none, last_completion_issues := none,
    iter_state := {},
    tests_passed := true,
    step_done := true,
    review_status := pys "skipped",
    verify_attempts := 0,
    max_verify_attempts := 3,
    skip_verify := false }

/-!  ### `lisa/state/git.py` — commit-trailer state recovery

`fetch_git_state` shells out to
`git log --grep=... --format=%B%x00 main..branch`; the embedding takes
the subprocess outcome (`rcOk`) and its stdout as arguments.  Matching
commit bodies appear newest first, each followed by a NUL and the
newline `git log` inserts between entries. -/

/-- The per-commit `state` dict built from recognised trailers. -/
structure CommitState where
  iteration : Option Int := none
  files : Option (List PyStr) := none
  errors : Option PyStr := none
  fixes : Option PyStr := none
deriving DecidableEq, Repr

/-- Result of `fetch_git_state`. -/
structure GitState where
  iterations : List CommitState
  last_test_error : Option PyStr
  last_review_issues : Option PyStr
deriving DecidableEq, Repr

/-- Loop state while scanning one commit body's lines: the `state` dict
plus the function-level `last_test_error` / `last_review_issues`. -/
structure TrailerAcc where
  st : CommitState := {}
  lte : Option PyStr := none
  lri : Option PyStr := none
deriving DecidableEq, Repr

/-- From `state/git.py`: `TRAILER_PREFIXES = ["Lisa-", "Tralph-"]`. -/
def TRAILER_PREFIXES : List PyStr := [pys "Lisa-", pys "Tralph-"]

/-- The `for prefix in TRAILER_PREFIXES` body of the line loop in
`fetch_git_state`: one elif-chain over the recognised trailers for one
candidate naming scheme.  `last_test_error` / `last_review_issues` are
only written while scanning the first (most recent) matching commit and
only when the value is not the literal `"none"`. -/
def applyTrailer (isFirst : Bool) (pre : PyStr) (acc : TrailerAcc) (line : PyStr) :
    TrailerAcc :=
  if pyStartsWith line (pre ++ pys "Iteration:") then
    match pySplitOnceTail ':' line with
    | some tail =>
      match pyInt (pyStrip tail) with
      | some n => { acc with st := { acc.st with iteration := some n } }
      | none => acc
    | none => acc
  else if pyStartsWith line (pre ++ pys "Files:") then
    match pySplitOnceTail ':' line with
    | some tail =>
      let fs := ((pySplit ',' (pyStrip tail)).map pyStrip).filter (fun f => !f.isEmpty)
      { acc with st := { acc.st with files := some fs } }
    | none => acc
  else if pyStartsWith line (pre ++ pys "Errors:") then
    match pySplitOnceTail ':' line with
    | some tail => { acc with st := { acc.st with errors := some (pyStrip tail) } }
    | none => acc
  else if pyStartsWith line (pre ++ pys "Fixes:") then
    match pySplitOnceTail ':' line with
    | some tail => { acc with st := { acc.st with fixes := some (pyStrip tail) } }
    | none => acc
  else if pyStartsWith line (pre ++ pys "Test-Error:") then
    match pySplitOnceTail ':' line with
    | some tail =>
      if isFirst ∧ pyStrip tail ≠ pys "none" then { acc with lte := some (pyStrip tail) }
      else acc
    | none => acc
  else if pyStartsWith line (pre ++ pys "Review-Issues:") then
    match pySplitOnceTail ':' line with
    | some tail =>
      if isFirst ∧ pyStrip tail ≠ pys "none" then { acc with lri := some (pyStrip tail) }
      else acc
    | none => acc
  else acc

/-- One line of a commit body, checked against both naming schemes. -/
def lineUpdate (isFirst : Bool) (acc : TrailerAcc) (line : PyStr) : TrailerAcc :=
  TRAILER_PREFIXES.foldl (fun a pre => applyTrailer isFirst pre a line) acc

/-- Python `if state:` on the per-commit dict. -/
def stateNonempty (s : CommitState) : Bool :=
  s.iteration.isSome || s.files.isSome || s.errors.isSome || s.fixes.isSome

/-- Scan all lines of one commit body. -/
def scanBody (isFirst : Bool) (lte lri : Option PyStr) (body : PyStr) : TrailerAcc :=
  (pySplit '\n' body).foldl (lineUpdate isFirst) { st := {}, lte := lte, lri := lri }

/-- One iteration of the `for commit_body in result.stdout.split("\x00")`
loop of `fetch_git_state`: blank bodies are skipped (without clearing
the first-commit flag); a non-blank body's trailer dict is appended when
non-empty and the first-commit flag is cleared. -/
def fetchStep (s : List CommitState × Option PyStr × Option PyStr × Bool)
    (body : PyStr) : List CommitState × Option PyStr × Option PyStr × Bool :=
  if (pyStrip body).isEmpty then s
  else
    let a := scanBody s.2.2.2 s.2.1 s.2.2.1 body
    (if stateNonempty a.st then s.1 ++ [a.st] else s.1, a.lte, a.lri, false)

/-- From `state/git.py`: `fetch_git_state`, over the `git log` outcome:
early-out on subprocess failure or blank output; otherwise fold
`fetchStep` over the NUL-separated commit bodies and keep the first 3
collected trailer dicts as history. -/
def fetch_git_state (rcOk : Bool) (stdout : PyStr) : GitState :=
  if !rcOk || (pyStrip stdout).isEmpty then
    { iterations := [], last_test_error := none, last_review_issues := none }
  else
    let r := (pySplit '\x00' stdout).foldl fetchStep ([], none, none, true)
    { iterations := r.1.take 3, last_test_error := r.2.1, last_review_issues := r.2.2.1 }

/-- The stdout `git log --format=%B%x00` produces for the given commit
bodies (newest first): each body, a NUL, and the newline `git log`
prints after every entry. -/
def gitLogOut (bodies : List PyStr) : PyStr :=
  (bodies.map (fun b => b ++ ['\x00', '\n'])).flatten

/-- The trailer dict one commit body contributes to the history list
(`none` when the body is blank or no trailer was recognised). -/
def commitRec (b : PyStr) : Option CommitState :=
  if (pyStrip b).isEmpty then none
  else if stateNonempty (scanBody false none none b).st then
    some (scanBody false none none b).st
  else none

/-- The test-error signal a body yields when it is the most recent one. -/
def bodyLTE (b : PyStr) : Option PyStr := (scanBody true none none b).lte

/-- The review-issues signal a body yields when it is the most recent one. -/
def bodyLRI (b : PyStr) : Option PyStr := (scanBody true none none b).lri

/-!  ### `lisa/state/comment.py` — the Progress Document

`parse_state_comment`'s two line-oriented regexes are hand-compiled to
deterministic scanners below; the lazy group `(.+?)` with the optional
`\s*←\s*current` tail is compiled to "shortest non-empty prefix whose
remainder is empty or a current-marker", which is exactly what the
backtracking engine computes for this pattern.  `build_state_comment`'s
`time.strftime` timestamp is passed as an argument. -/

/-- Whether a string is matched completely by `\s*←\s*current`. -/
def isCurMarker (b : PyStr) : Bool :=
  match b.dropWhile isPySpace with
  | '←' :: r => (r.dropWhile isPySpace) == pys "current"
  | _ => false

/-- The lazy scan for `(.+?)(?:\s*←\s*current)?$`: grow the group from
the left until the remainder is empty or a current-marker. -/
def grp4Aux (acc : PyStr) : PyStr → PyStr
  | [] => acc
  | b :: bs => if isCurMarker (b :: bs) then acc else grp4Aux (acc ++ [b]) bs

/-- Group 4 of the checklist regex (`none` when the remainder after
`": "` is empty, because `.+?` needs at least one character). -/
def grp4 : PyStr → Option PyStr
  | [] => none
  | c :: cs => some (grp4Aux [c] cs)

/-- The optional ticket group `(?: \(([^)]+)\))?` followed by the
literal `": "`: try the group first (greedy `?`); if the group cannot
complete, the regex engine retries without it, which then requires
`": "` directly. -/
def parseAfterStars (l : PyStr) : Option (PyStr × PyStr) :=
  match dropPre (pys " (") l with
  | some r =>
    let t := r.takeWhile (fun c => c ≠ ')')
    if t.isEmpty then none
    else
      match dropPre (pys "): ") (r.drop t.length) with
      | some rest => some (t, rest)
      | none => none
  | none =>
    match dropPre (pys ": ") l with
    | some rest => some ([], rest)
    | none => none

/-- From `comment.py` `parse_state_comment`, the checklist regex
`- \[([ x])\] \*\*(\d+)\*\*(?: \(([^)]+)\))?: (.+?)(?:\s*←\s*current)?$`
applied with `re.match` to a stripped line; on a match, the step dict
`{id, ticket, description (stripped), done}`. -/
def parseStepLine (l : PyStr) : Option PlanStep :=
  match dropPre (pys "- [") l with
  | none => none
  | some l1 =>
    match l1 with
    | [] => none
    | c :: l2 =>
      if c = ' ' ∨ c = 'x' then
        match dropPre (pys "] **") l2 with
        | none => none
        | some l3 =>
          let ds := l3.takeWhile Char.isDigit
          if ds.isEmpty then none
          else
            match dropPre (pys "**") (l3.drop ds.length) with
            | none => none
            | some l4 =>
              match parseAfterStars l4 with
              | none => none
              | some (ticket, rest3) =>
                match grp4 rest3 with
                | none => none
                | some g =>
                  some { id := fromDec ds, description := pyStrip g,
                         ticket := ticket, done := c == 'x' }
      else none

/-- Result of `parse_state_comment`. -/
structure CommentState where
  iterations : Nat
  current_step : Option Int
  plan_steps : List PlanStep
deriving DecidableEq, Repr

/-- `re.search(r"\|\s*(\d+)\s*\|", seg)`: scan left to right for a
pipe, optional spaces, at least one digit, optional spaces, pipe. -/
def searchPipeNum : PyStr → Option Nat
  | [] => none
  | c :: cs =>
    if c = '|' then
      let sp1 := cs.dropWhile isPySpace
      let ds := sp1.takeWhile Char.isDigit
      if ds.isEmpty then searchPipeNum cs
      else
        match (sp1.drop ds.length).dropWhile isPySpace with
        | '|' :: _ => some (fromDec ds)
        | _ => searchPipeNum cs
    else searchPipeNum cs

/-- From `comment.py` `parse_state_comment`, one line of the table-row
loop: the Iterations row searches `line.split("|")[2]` for the
pipe-delimited number pattern (which a pipe-free segment can never
match); the Current-step row takes `split("|")[2].strip()` and accepts
any `int(...)`-parseable value other than `""` and `"-"`. -/
def tableRowStep (acc : Nat × Option Int) (l0 : PyStr) : Nat × Option Int :=
  let l := pyStrip l0
  if pyStartsWith l (pys "| Iterations |") then
    let parts := pySplit '|' l
    let seg := if parts.length > 2 then parts.getD 2 [] else []
    match searchPipeNum seg with
    | some n => (n, acc.2)
    | none => acc
  else if pyStartsWith l (pys "| Current step |") then
    let parts := pySplit '|' l
    if parts.length > 2 then
      let val := pyStrip (parts.getD 2 [])
      if val ≠ [] ∧ val ≠ pys "-" then
        match pyInt val with
        | some n => (acc.1, some n)
        | none => acc
      else acc
    else acc
  else acc

/-- From `comment.py`: `parse_state_comment(body)` — collect checklist
steps from every matching line, then recover the two table rows. -/
def parse_state_comment (body : PyStr) : CommentState :=
  let ls := pySplit '\n' body
  { iterations := (ls.foldl tableRowStep (0, none)).1,
    current_step := (ls.foldl tableRowStep (0, none)).2,
    plan_steps := ls.filterMap (fun l => parseStepLine (pyStrip l)) }

/-- From `models/core.py`: `ExplorationFindings` (a similar
implementation is its `file` and `relevance` strings). -/
structure ExplorationFindings where
  patterns : List PyStr := []
  relevant_modules : List PyStr := []
  similar_implementations : List (PyStr × PyStr) := []

/-- From `comment.py`: `format_exploration_markdown`. -/
def format_exploration_markdown : Option ExplorationFindings → PyStr
  | none => []
  | some e =>
    let lines0 : List PyStr := [pys "## Exploration"]
    let lines1 := if e.patterns ≠ [] then
        lines0 ++ [pys "**Patterns:** " ++ pyJoin (pys " | ") (e.patterns.take 5)]
      else lines0
    let lines2 := if e.relevant_modules ≠ [] then
        lines1 ++ [pys "**Modules:** " ++ pyJoin (pys ", ") (e.relevant_modules.take 5)]
      else lines1
    let templates := (e.similar_implementations.take 3).filterMap (fun imp =>
        let fn := (pySplit '/' imp.1).getLastD []
        if fn.isEmpty then none
        else if imp.2 ≠ [] then some (fn ++ pys " (" ++ imp.2.take 30 ++ pys ")")
        else some fn)
    let lines3 := if e.similar_implementations ≠ [] ∧ templates ≠ [] then
        lines2 ++ [pys "**Templates:** " ++ pyJoin (pys ", ") templates]
      else lines2
    if lines3.length > 1 then pyJoin (pys "\n") lines3 ++ pys "\n\n" else []

/-- The one or two markdown lines one assumption contributes. -/
def assumptionLines (a : Assumption) : List PyStr :=
  [(if a.selected then pys "✅" else pys "❌") ++ pys " " ++ a.id ++ pys ". " ++ a.statement]
    ++ (if a.rationale ≠ [] then [pys "   *" ++ a.rationale ++ pys "*"] else [])

/-- From `comment.py`: `format_assumptions_markdown` (planning `P.x`
assumptions first, then work-phase assumptions). -/
def format_assumptions_markdown (assumptions : List Assumption) : PyStr :=
  if assumptions = [] then []
  else
    let planning := assumptions.filter (fun a => pyStartsWith a.id (pys "P."))
    let work := assumptions.filter (fun a => !pyStartsWith a.id (pys "P."))
    let lines := [pys "## Assumptions"] ++ planning.flatMap assumptionLines ++
      work.flatMap assumptionLines
    pyJoin (pys "\n") lines ++ pys "\n\n"

/-- The file-operation sub-lines one planned file contributes under a
checklist entry. -/
def stepFileLines (f : FileEntry) : PyStr :=
  pys "  - `" ++ f.op ++ pys "`: " ++ f.path ++ pys "\n" ++
    (if f.template ≠ [] then pys "    template: " ++ f.template ++ pys "\n" else []) ++
    (if f.detail ≠ [] then pys "    detail: " ++ f.detail ++ pys "\n" else [])

/-- One checklist entry of the Plan section, with its file sub-lines:
`- [{checkbox}] **{id}**{ticket_str}: {description}{marker}\n`. -/
def stepLine (current_step : Option Nat) (s : PlanStep) : PyStr :=
  pys "- [" ++ (if s.done then pys "x" else pys " ") ++ pys "] **" ++ toDec s.id ++
    pys "**" ++ (if s.ticket ≠ [] then pys " (" ++ s.ticket ++ pys ")" else []) ++
    pys ": " ++ s.description ++
    (if current_step = some s.id then pys " ← current" else []) ++ pys "\n" ++
    (s.files.map stepFileLines).flatten

/-- From `comment.py`: `build_state_comment` (the `time.strftime`
timestamp is an argument; `current_step or '-'` renders 0 and `None`
as `-`). -/
def build_state_comment (branch_name : PyStr) (iteration : Nat)
    (current_step : Option Nat) (plan_steps : List PlanStep)
    (log_entries : List PyStr) (assumptions : List Assumption)
    (exploration : Option ExplorationFindings) (timestamp : PyStr) : PyStr :=
  let header := pys "🤖 **lisa** · `" ++ branch_name ++ pys "`"
  let body0 := header ++ pys "\n\n"
  let body1 := body0 ++ format_exploration_markdown exploration
  let body2 := if plan_steps ≠ [] then
      body1 ++ pys "## Plan\n" ++ (plan_steps.map (stepLine current_step)).flatten ++ pys "\n"
    else body1
  let body3 := if assumptions ≠ [] then
      body2 ++ format_assumptions_markdown assumptions
    else body2
  let csr := match current_step with
    | some n => if n = 0 then pys "-" else toDec n
    | none => pys "-"
  let body4 := body3 ++ pys "| Field | Value |\n|-------|-------|\n| Iterations | " ++
      toDec iteration ++ pys " |\n| Current step | " ++ csr ++ pys " |\n| Last run | " ++
      timestamp ++ pys " |\n\n**Log:**\n"
  body4 ++ ((log_entries.take 10).map (fun e => pys "- " ++ e ++ pys "\n")).flatten

/-- Well-formedness of a step description for the round trip: non-empty,
single-line, no current-marker arrow, and no leading/trailing
whitespace (`build` writes it verbatim, `parse` strips it). -/
def descOK (d : PyStr) : Prop :=
  d ≠ [] ∧ '\n' ∉ d ∧ '←' ∉ d ∧
    isPySpace (d.headD 'x') = false ∧ isPySpace (d.getLastD 'x') = false

/-- Well-formedness of a ticket id for the round trip: single-line and
without a closing parenthesis (which would end the `([^)]+)` group). -/
def ticketOK (t : PyStr) : Prop := '\n' ∉ t ∧ ')' ∉ t

instance (d : PyStr) : Decidable (descOK d) := by unfold descOK; infer_instance

instance (t : PyStr) : Decidable (ticketOK t) := by unfold ticketOK; infer_instance

/-!  ## Theorems  -/

theorem find_next_suffix_foldl_max (branches : List PyStr) (base : PyStr) (init : Nat) :
    branches.foldl
      (fun m b =>
        if b = base then max m 1
        else
          match dropPre (base ++ ['-']) b with
          | some suffixPart => if pyIsDigit suffixPart then max m (fromDec suffixPart) else m
          | none => m)
      init
    = (suffixValues branches base).foldl max init := by
  induction branches generalizing init with
  | nil => rfl
  | cons b bs ih =>
    simp only [suffixValues, List.filterMap_cons, List.foldl_cons]
    by_cases hb : b = base
    · simp [hb, ih, suffixValues]
    · simp only [if_neg hb]
      cases hdp : dropPre (base ++ ['-']) b with
      | none => simpa [hdp] using ih init
      | some suffixPart =>
        by_cases hd : pyIsDigit suffixPart
        · simp [hdp, hd, ih, suffixValues]
        · simpa [hdp, hd] using ih init

theorem init_le_foldl_max (l : List Nat) (i : Nat) : i ≤ l.foldl max i := by
  induction l generalizing i with
  | nil => simp
  | cons x xs ih => exact le_trans (le_max_left i x) (ih (max i x))

theorem le_foldl_max (l : List Nat) (i v : Nat) (h : v ∈ l) : v ≤ l.foldl max i := by
  induction l generalizing i with
  | nil => cases h
  | cons x xs ih =>
    rcases List.mem_cons.mp h with rfl | hx
    · exact le_trans (le_max_right i v) (init_le_foldl_max xs (max i v))
    · exact ih (max i x) hx

/-- C8 (amended): `find_next_suffix` returns one more than the maximum of
1 and all numeric suffixes among branches of the form `base-<digits>`
(bare `base` counting as 1): the baseline 1 applies even when neither the
bare base nor any suffixed branch is present, so the result is always at
least 2 and strictly greater than every existing numeric suffix; for
`{prefix-foo, prefix-foo-2, prefix-foo-5}` with base `prefix-foo` it
returns 6. -/
theorem claim_C8_amended (branches : List PyStr) (base : PyStr) :
    find_next_suffix branches base = (suffixValues branches base).foldl max 1 + 1 ∧
    (∀ v ∈ suffixValues branches base, v < find_next_suffix branches base) ∧
    2 ≤ find_next_suffix branches base ∧
    find_next_suffix [pys "prefix-foo", pys "prefix-foo-2", pys "prefix-foo-5"]
      (pys "prefix-foo") = 6 := by
  have hfold := find_next_suffix_foldl_max branches base 1
  refine ⟨by simpa [find_next_suffix] using hfold, ?_, ?_, by rfl⟩
  · intro v hv
    have := le_foldl_max (suffixValues branches base) 1 v hv
    simp only [find_next_suffix] at *
    omega
  · have := init_le_foldl_max (suffixValues branches base) 1
    simp only [find_next_suffix] at *
    omega

/-- C8 (counterexample): for branches `{b-0}` and base `b`, the claim
predicts `0 + 1 = 1` (one more than the maximum numeric suffix, with no
bare match present), but `find_next_suffix` starts its running maximum at
1 unconditionally and returns 2. -/
theorem claim_C8_counterexample :
    find_next_suffix [pys "b-0"] (pys "b") = 2 ∧
    claimNextSuffix [pys "b-0"] (pys "b") = 1 ∧
    suffixValues [pys "b-0"] (pys "b") = [0] := by
  refine ⟨rfl, rfl, rfl⟩

/-- C9: `should_run_command` returns true for every command whose `paths`
list is missing or empty (the config `get` defaults a missing key to the
empty list), regardless of the changed-file list; when `paths` is
non-empty it returns true iff some changed file matches some
brace-expanded glob pattern from the list. -/
theorem claim_C9 (cmd : TestCommand) (changed_files : List PyStr) :
    should_run_command cmd changed_files = true ↔
      (cmd.paths = [] ∨
        ∃ f ∈ changed_files, ∃ p ∈ cmd.paths.flatMap expandBraces,
          globMatch p f = true) := by
  unfold should_run_command
  by_cases hp : cmd.paths.isEmpty
  · simp [hp, List.isEmpty_iff.mp hp]
  · have hne : cmd.paths ≠ [] := by simpa [List.isEmpty_iff] using hp
    simp only [if_neg hp, hne, false_or, List.any_eq_true]

theorem reviewLoop_no_completion_issues (env : VerifyEnv) :
    ∀ (fuel tIdx rIdx attempt : Nat) (issues : List PyStr) (counts : PyStr → Nat),
      (reviewLoop env tIdx rIdx attempt issues counts fuel).1.completion_issues = [] := by
  intro fuel
  induction fuel with
  | zero => intro _ _ _ _ _; rfl
  | succ n ih =>
    intro tIdx rIdx attempt issues counts
    simp only [reviewLoop]
    split
    · rfl
    · split
      · rfl
      · split
        · rfl
        · exact ih _ _ _ _ _

theorem verifyMain_no_completion_issues (env : VerifyEnv) :
    (verifyMain env).1.completion_issues = [] := by
  unfold verifyMain
  split
  · rfl
  · exact reviewLoop_no_completion_issues env MAX_FIX_ATTEMPTS _ 0 0 [] (fun _ => 0)

theorem verifyMain_runs_tests (env : VerifyEnv) :
    1 ≤ (verifyMain env).2.testCalls := by
  unfold verifyMain
  split
  · simp
  · simp only [vsAdd]
    omega

/-- C1: when every test phase passes and every lightweight review call
returns not-approved with summaries identical after truncation to 100
characters, `verify_step` performs exactly 3 review calls — the third
pushes the repeat count to `MAX_ISSUE_REPEATS = 3` — and returns
immediately with `passed = false` and the accumulated issue list
(`fix_attempts = 3`), issuing no further review or fix calls (2
review-fix prompts, 0 test-fix prompts in total). -/
theorem claim_C1 (env : VerifyEnv) (sid : Nat) (sdesc s : PyStr)
    (hc : (run_completion_check env.completionRaw).complete.getD true = true)
    (ht : ∀ k, env.testPhase k = none)
    (hr : ∀ k, (env.review k).approved = false)
    (hs : ∀ k, (env.review k).summary.take 100 = s) :
    MAX_ISSUE_REPEATS = 3 ∧
    (verify_step env sid sdesc).1 =
      { passed := false, review_issues := [s, s, s], fix_attempts := 3 } ∧
    (verify_step env sid sdesc).2.reviewCalls = 3 ∧
    (verify_step env sid sdesc).2.reviewFixCalls = 2 ∧
    (verify_step env sid sdesc).2.testFixCalls = 0 := by
  have hmain : verifyMain env =
      ({ passed := false, review_issues := [s, s, s], fix_attempts := 3 },
       { testCalls := 3, reviewCalls := 3, testFixCalls := 0, reviewFixCalls := 2 }) := by
    simp [verifyMain, MAX_FIX_ATTEMPTS, MAX_ISSUE_REPEATS, testFixLoop, reviewLoop,
      ht, hr, hs, vsAdd]
  refine ⟨rfl, ?_, ?_, ?_, ?_⟩ <;>
  · unfold verify_step
    by_cases hcase : sid ≠ 0 ∧ sdesc ≠ []
    · simp [hcase, hc, hmain, vsAdd]
    · simp [hcase, hmain]

/-- C1 witness: a concrete environment with passing tests and a constant
not-approved review summary `"dup"`. -/
theorem claim_C1_witness :
    (verify_step (⟨some ⟨some true, none⟩, fun _ => none,
        fun _ => ⟨false, [], pys "dup"⟩⟩ : VerifyEnv) 1 (pys "step")).1 =
      { passed := false, review_issues := [pys "dup", pys "dup", pys "dup"],
        fix_attempts := 3 } :=
  (claim_C1 ⟨some ⟨some true, none⟩, fun _ => none, fun _ => ⟨false, [], pys "dup"⟩⟩
    1 (pys "step") (pys "dup") rfl (fun _ => rfl) (fun _ => rfl) (fun _ => rfl)).2.1

/-- C2: when the completion check passes but every test-phase run fails
(with arbitrary, possibly different, failures `F k`), `verify_step`
performs exactly `MAX_FIX_ATTEMPTS = 4` fix attempts and returns
`passed = false` with `test_errors` holding the summary of the last
failure; the review phase is never reached. -/
theorem claim_C2 (env : VerifyEnv) (sid : Nat) (sdesc : PyStr) (F : Nat → TestFailure)
    (hc : (run_completion_check env.completionRaw).complete.getD true = true)
    (ht : ∀ k, env.testPhase k = some (F k)) :
    MAX_FIX_ATTEMPTS = 4 ∧
    (verify_step env sid sdesc).1 =
      { passed := false, test_errors := [(F 4).summary] } ∧
    (verify_step env sid sdesc).2.testFixCalls = 4 ∧
    (verify_step env sid sdesc).2.reviewCalls = 0 := by
  have hmain : verifyMain env =
      ({ passed := false, test_errors := [(F 4).summary] },
       { testCalls := 5, testFixCalls := 4 }) := by
    simp [verifyMain, MAX_FIX_ATTEMPTS, testFixLoop, ht]
  refine ⟨rfl, ?_, ?_, ?_⟩ <;>
  · unfold verify_step
    by_cases hcase : sid ≠ 0 ∧ sdesc ≠ []
    · simp [hcase, hc, hmain, vsAdd]
    · simp [hcase, hmain]

/-- C2 witness: a concrete environment whose test phase always fails
with summary `"boom"`. -/
theorem claim_C2_witness :
    (verify_step (⟨some ⟨some true, none⟩,
        fun _ => some ⟨pys "unit tests", pys "boom out", pys "boom", []⟩,
        fun _ => ⟨true, [], pys "ok"⟩⟩ : VerifyEnv) 1 (pys "step")).1 =
      { passed := false, test_errors := [pys "boom"] } :=
  (claim_C2 ⟨some ⟨some true, none⟩,
      fun _ => some ⟨pys "unit tests", pys "boom out", pys "boom", []⟩,
      fun _ => ⟨true, [], pys "ok"⟩⟩
    1 (pys "step") (fun _ => ⟨pys "unit tests", pys "boom out", pys "boom", []⟩)
    rfl (fun _ => rfl)).2.1

/-- C10: when the completion-check backend response is not valid JSON,
`run_completion_check` returns `{complete: true, missing: null}`, so
`verify_step` (called with a truthy step id and description) does not
return a `completion_issues` failure and proceeds to run the test
phase at least once. -/
theorem claim_C10 (env : VerifyEnv) (sid : Nat) (sdesc : PyStr)
    (hraw : env.completionRaw = none) (hsid : sid ≠ 0) (hdesc : sdesc ≠ []) :
    run_completion_check env.completionRaw = { complete := some true, missing := none } ∧
    (verify_step env sid sdesc).1.completion_issues = [] ∧
    1 ≤ (verify_step env sid sdesc).2.testCalls := by
  have hrc : run_completion_check env.completionRaw =
      { complete := some true, missing := none } := by rw [hraw]; rfl
  refine ⟨hrc, ?_, ?_⟩ <;>
  · unfold verify_step
    simp only [if_pos (And.intro hsid hdesc), hrc]
    have h1 := verifyMain_no_completion_issues env
    have h2 := verifyMain_runs_tests env
    cases hm : verifyMain env with
    | mk res st =>
      rw [hm] at h1 h2
      simp_all [vsAdd]

/-- C10 witness: an unparseable completion response with a concrete
passing environment. -/
theorem claim_C10_witness :
    run_completion_check (VerifyEnv.completionRaw
        ⟨none, fun _ => none, fun _ => ⟨true, [], pys "ok"⟩⟩) =
      { complete := some true, missing := none } ∧
    (verify_step (⟨none, fun _ => none, fun _ => ⟨true, [], pys "ok"⟩⟩ : VerifyEnv)
        1 (pys "step")).1.completion_issues = [] :=
  ⟨(claim_C10 _ 1 (pys "step") rfl (by decide) (by decide)).1,
   (claim_C10 _ 1 (pys "step") rfl (by decide) (by decide)).2.1⟩

theorem pyStartsWith_append_self (p x : PyStr) : pyStartsWith (p ++ x) p = true := by
  induction p with
  | nil => cases x <;> rfl
  | cons c cs ih => simp [pyStartsWith, ih]

/-- C3: after `handle_verify_step` returns — pass, scheduled retry, or
exhausted retry budget — at most one of `last_test_error`,
`last_review_issues`, `last_completion_issues` is non-null; and on a
pass, or when verification is skipped by configuration, all three are
null. -/
theorem claim_C3 (ctx : WorkContext) (verify : VerifyResult) :
    signalCount (handle_verify_step ctx verify).1 ≤ 1 ∧
    (ctx.skip_verify = true ∨ verify.passed = true →
      (handle_verify_step ctx verify).1.last_test_error = none ∧
      (handle_verify_step ctx verify).1.last_review_issues = none ∧
      (handle_verify_step ctx verify).1.last_completion_issues = none) := by
  constructor
  · unfold handle_verify_step
    repeat' split
    all_goals simp only [signalCount]
    all_goals (repeat' split)
    all_goals simp_all
  · intro hor
    unfold handle_verify_step
    rcases hor with hskip | hpass
    · simp [hskip]
    · by_cases hskip : ctx.skip_verify <;> simp [hskip, hpass]

/-- C3 witness: a passing verification on the sample context clears all
three failure signals. -/
theorem claim_C3_witness :
    signalCount (handle_verify_step sampleCtx { passed := true }).1 ≤ 1 ∧
    (handle_verify_step sampleCtx { passed := true }).1.last_test_error = none ∧
    (handle_verify_step sampleCtx { passed := true }).1.last_review_issues = none ∧
    (handle_verify_step sampleCtx { passed := true }).1.last_completion_issues = none :=
  ⟨(claim_C3 sampleCtx { passed := true }).1,
   (claim_C3 sampleCtx { passed := true }).2 (Or.inr rfl)⟩

/-- C6 (counterexample): from a fresh step (`verify_attempts = 0`,
`max_verify_attempts = 3`), consecutive failing verifications return to
`EXECUTE_WORK` only twice; the third failing verification already
proceeds to `COMMIT_CHANGES`, so the state machine never returns to
`EXECUTE_WORK` 3 times for a step as the claim states.  (The handlers
between a retry and the next verification do not touch
`verify_attempts`, `max_verify_attempts` or `skip_verify`, so chaining
`handle_verify_step` directly is faithful.) -/
theorem claim_C6_counterexample :
    (handle_verify_step sampleCtx { passed := false, test_errors := [pys "boom"] }).2 =
      WorkState.EXECUTE_WORK ∧
    (handle_verify_step
        (handle_verify_step sampleCtx { passed := false, test_errors := [pys "boom"] }).1
        { passed := false, test_errors := [pys "boom"] }).2 =
      WorkState.EXECUTE_WORK ∧
    (handle_verify_step
        (handle_verify_step
          (handle_verify_step sampleCtx { passed := false, test_errors := [pys "boom"] }).1
          { passed := false, test_errors := [pys "boom"] }).1
        { passed := false, test_errors := [pys "boom"] }).2 =
      WorkState.COMMIT_CHANGES ∧
    WorkState.COMMIT_CHANGES ≠ WorkState.EXECUTE_WORK ∧
    sampleCtx.max_verify_attempts = 3 ∧ sampleCtx.verify_attempts = 0 := by
  refine ⟨rfl, rfl, rfl, by decide, rfl, rfl⟩

/-- Whenever `handle_commit_changes` attempts a commit, the title it
passes to `git_commit` is the fail-marker prefix (when tests did not
pass) followed by `step <current>: <short_desc>`. -/
theorem handle_commit_changes_some_title (ctx : WorkContext)
    (fa faf : List PyStr) (sd t : PyStr)
    (h : (handle_commit_changes ctx fa faf sd).2.2 = some t) :
    t = (if ctx.tests_passed then ([] : PyStr) else pys "[FAIL] ") ++
        (pys "step " ++ (renderOptNat ctx.current_step ++ (pys ": " ++ sd))) := by
  unfold handle_commit_changes at h
  dsimp only at h
  split at h
  · simp at h
  · simp only [Option.some.injEq] at h
    subst h
    simp [commit_title]

/-- C6 (amended): when verification fails for the current step (and
verification is not skipped), `handle_verify_step` increments the retry
counter and returns to `EXECUTE_WORK` iff the incremented counter is
still below `max_verify_attempts` (3) — so at most
`max_verify_attempts - 1 = 2` returns per step, the third consecutive
failure exhausting the budget; on exhaustion it proceeds to
`COMMIT_CHANGES` with `tests_passed = false`, so any commit attempted by
`handle_commit_changes` carries the `"[FAIL] "` marker in its title
instead of the run aborting; the failing path leaves the plan's done
flags untouched, and a step is marked done exactly by the passing (or
skip-verify) path via `markStepDone`. -/
theorem claim_C6_amended (ctx : WorkContext) (verify : VerifyResult)
    (hskip : ctx.skip_verify = false) (hfail : verify.passed = false) :
    ((handle_verify_step ctx verify).2 = WorkState.EXECUTE_WORK ↔
      ctx.verify_attempts + 1 < ctx.max_verify_attempts) ∧
    ((handle_verify_step ctx verify).2 = WorkState.EXECUTE_WORK ∨
      (handle_verify_step ctx verify).2 = WorkState.COMMIT_CHANGES) ∧
    (handle_verify_step ctx verify).1.verify_attempts = ctx.verify_attempts + 1 ∧
    (handle_verify_step ctx verify).1.plan_steps = ctx.plan_steps ∧
    (handle_verify_step ctx verify).1.tests_passed = false ∧
    (∀ fa faf sd t,
      (handle_commit_changes (handle_verify_step ctx verify).1 fa faf sd).2.2 = some t →
        pyStartsWith t (pys "[FAIL] ") = true) ∧
    (∀ v2 : VerifyResult, v2.passed = true →
      (handle_verify_step ctx v2).1.plan_steps = markStepDone ctx.plan_steps ctx.current_step) := by
  have hmark : ∀ v2 : VerifyResult, v2.passed = true →
      (handle_verify_step ctx v2).1.plan_steps = markStepDone ctx.plan_steps ctx.current_step := by
    intro v2 hp
    simp [handle_verify_step, hskip, hp]
  have hstate : ((handle_verify_step ctx verify).2 = WorkState.EXECUTE_WORK ↔
        ctx.verify_attempts + 1 < ctx.max_verify_attempts) ∧
      ((handle_verify_step ctx verify).2 = WorkState.EXECUTE_WORK ∨
        (handle_verify_step ctx verify).2 = WorkState.COMMIT_CHANGES) ∧
      (handle_verify_step ctx verify).1.verify_attempts = ctx.verify_attempts + 1 ∧
      (handle_verify_step ctx verify).1.plan_steps = ctx.plan_steps ∧
      (handle_verify_step ctx verify).1.tests_passed = false := by
    unfold handle_verify_step
    simp only [hskip, hfail, Bool.false_eq_true, if_false]
    by_cases hlt : ctx.verify_attempts + 1 < ctx.max_verify_attempts
    · repeat' split
      all_goals simp_all
    · repeat' split
      all_goals simp_all
  refine ⟨hstate.1, hstate.2.1, hstate.2.2.1, hstate.2.2.2.1, hstate.2.2.2.2, ?_, hmark⟩
  intro fa faf sd t hcommit
  have ht := handle_commit_changes_some_title _ fa faf sd t hcommit
  rw [ht, hstate.2.2.2.2]
  simp only [Bool.false_eq_true, if_false]
  exact pyStartsWith_append_self (pys "[FAIL] ") _

/-- C6 witness: the amended characterization applied to the sample
context with a concrete failing verification. -/
theorem claim_C6_witness :
    ((handle_verify_step sampleCtx { passed := false, test_errors := [pys "boom"] }).2 =
      WorkState.EXECUTE_WORK ↔
      sampleCtx.verify_attempts + 1 < sampleCtx.max_verify_attempts) ∧
    (handle_verify_step sampleCtx
        { passed := false, test_errors := [pys "boom"] }).1.tests_passed = false :=
  ⟨(claim_C6_amended sampleCtx { passed := false, test_errors := [pys "boom"] } rfl rfl).1,
   (claim_C6_amended sampleCtx { passed := false, test_errors := [pys "boom"] } rfl rfl).2.2.2.2.1⟩

theorem pySplit_no_sep (sep : Char) (a : PyStr) (h : sep ∉ a) : pySplit sep a = [a] := by
  induction a with
  | nil => rfl
  | cons c cs ih =>
    have hc : ¬c = sep := fun e => h (e ▸ List.mem_cons_self c cs)
    have hcs : sep ∉ cs := fun m => h (List.mem_cons_of_mem c m)
    simp [pySplit, hc, ih hcs]

theorem pySplit_append_sep (sep : Char) (a b : PyStr) (h : sep ∉ a) :
    pySplit sep (a ++ sep :: b) = a :: pySplit sep b := by
  induction a with
  | nil => simp [pySplit]
  | cons c cs ih =>
    have hc : ¬c = sep := fun e => h (e ▸ List.mem_cons_self c cs)
    have hcs : sep ∉ cs := fun m => h (List.mem_cons_of_mem c m)
    simp [pySplit, hc, ih hcs]

theorem split_gitLogOut_cons (b : PyStr) (rest : List PyStr) (hb : '\x00' ∉ b)
    (hrest : ∀ x ∈ rest, '\x00' ∉ x) :
    pySplit '\x00' (gitLogOut (b :: rest)) =
      b :: (rest.map (fun x => '\n' :: x) ++ [['\n']]) := by
  induction rest generalizing b with
  | nil =>
    have hgl : gitLogOut [b] = b ++ '\x00' :: ['\n'] := by simp [gitLogOut]
    rw [hgl, pySplit_append_sep _ _ _ hb]
    rfl
  | cons b2 rest2 ih =>
    have hb2 : '\x00' ∉ b2 := hrest b2 (List.mem_cons_self b2 rest2)
    have hrest2 : ∀ x ∈ rest2, '\x00' ∉ x := fun x hx => hrest x (List.mem_cons_of_mem b2 hx)
    have hgl : gitLogOut (b :: b2 :: rest2) =
        b ++ '\x00' :: ('\n' :: gitLogOut (b2 :: rest2)) := by
      simp [gitLogOut]
    rw [hgl, pySplit_append_sep _ _ _ hb]
    have hnl : pySplit '\x00' ('\n' :: gitLogOut (b2 :: rest2)) =
        match pySplit '\x00' (gitLogOut (b2 :: rest2)) with
        | [] => [['\n']]
        | h :: t => ('\n' :: h) :: t := by
      simp [pySplit]
    rw [hnl, ih b2 hb2 hrest2]
    simp

theorem applyTrailer_signals_of_false (pre : PyStr) (acc : TrailerAcc) (line : PyStr) :
    (applyTrailer false pre acc line).lte = acc.lte ∧
    (applyTrailer false pre acc line).lri = acc.lri := by
  unfold applyTrailer
  repeat' split
  all_goals simp_all

theorem applyTrailer_st_congr (f g : Bool) (pre : PyStr) (a b : TrailerAcc) (line : PyStr)
    (h : a.st = b.st) :
    (applyTrailer f pre a line).st = (applyTrailer g pre b line).st := by
  unfold applyTrailer
  repeat' split
  all_goals simp_all

theorem lineUpdate_signals_of_false (acc : TrailerAcc) (line : PyStr) :
    (lineUpdate false acc line).lte = acc.lte ∧
    (lineUpdate false acc line).lri = acc.lri := by
  have h1 := applyTrailer_signals_of_false (pys "Lisa-") acc line
  have h2 := applyTrailer_signals_of_false (pys "Tralph-")
    (applyTrailer false (pys "Lisa-") acc line) line
  exact ⟨h2.1.trans h1.1, h2.2.trans h1.2⟩

theorem lineUpdate_st_congr (f g : Bool) (a b : TrailerAcc) (line : PyStr)
    (h : a.st = b.st) :
    (lineUpdate f a line).st = (lineUpdate g b line).st :=
  applyTrailer_st_congr f g _ _ _ line (applyTrailer_st_congr f g _ a b line h)

theorem foldl_lineUpdate_signals_of_false (lines : List PyStr) (acc : TrailerAcc) :
    (lines.foldl (lineUpdate false) acc).lte = acc.lte ∧
    (lines.foldl (lineUpdate false) acc).lri = acc.lri := by
  induction lines generalizing acc with
  | nil => exact ⟨rfl, rfl⟩
  | cons l ls ih =>
    have h1 := lineUpdate_signals_of_false acc l
    have h2 := ih (lineUpdate false acc l)
    exact ⟨h2.1.trans h1.1, h2.2.trans h1.2⟩

theorem foldl_lineUpdate_st_congr (f g : Bool) (lines : List PyStr) (a b : TrailerAcc)
    (h : a.st = b.st) :
    (lines.foldl (lineUpdate f) a).st = (lines.foldl (lineUpdate g) b).st := by
  induction lines generalizing a b with
  | nil => exact h
  | cons l ls ih => exact ih _ _ (lineUpdate_st_congr f g a b l h)

theorem scanBody_signals_of_false (lte lri : Option PyStr) (b : PyStr) :
    (scanBody false lte lri b).lte = lte ∧ (scanBody false lte lri b).lri = lri :=
  foldl_lineUpdate_signals_of_false (pySplit '\n' b) _

theorem scanBody_st_congr (f g : Bool) (lte lri lte' lri' : Option PyStr) (b : PyStr) :
    (scanBody f lte lri b).st = (scanBody g lte' lri' b).st :=
  foldl_lineUpdate_st_congr f g (pySplit '\n' b) _ _ rfl

theorem lineUpdate_nil (f : Bool) (acc : TrailerAcc) : lineUpdate f acc [] = acc := by
  rfl

theorem scanBody_newline (f : Bool) (lte lri : Option PyStr) (b : PyStr) :
    scanBody f lte lri ('\n' :: b) = scanBody f lte lri b := by
  unfold scanBody
  have hsp : pySplit '\n' ('\n' :: b) = [] :: pySplit '\n' b := by simp [pySplit]
  rw [hsp, List.foldl_cons, lineUpdate_nil]

theorem pyStrip_cons_space (c : Char) (t : PyStr) (h : isPySpace c = true) :
    pyStrip (c :: t) = pyStrip t := by
  simp [pyStrip, stripLeft, List.dropWhile_cons, h]

theorem pyStrip_ne_nil_of_mem (s : PyStr) (c : Char) (hc : c ∈ s)
    (hns : isPySpace c = false) : (pyStrip s).isEmpty = false := by
  rw [List.isEmpty_eq_false_iff_exists_mem]
  by_contra hnone
  push_neg at hnone
  have hempty : pyStrip s = [] := List.eq_nil_iff_forall_not_mem.mpr hnone
  have hall : ∀ d ∈ s, isPySpace d = true := by
    intro d hd
    have hsplit := List.takeWhile_append_dropWhile (p := isPySpace) (l := s)
    have hdrop : stripRight (stripLeft s) = [] := hempty
    have h2 : List.dropWhile isPySpace (stripLeft s).reverse = [] := by
      have := congrArg List.reverse hdrop
      simpa [stripRight] using this
    have h3 : ∀ d ∈ (stripLeft s).reverse, isPySpace d = true :=
      List.dropWhile_eq_nil_iff.mp h2
    have h4 : ∀ d ∈ stripLeft s, isPySpace d = true := by
      intro d hd
      exact h3 d (List.mem_reverse.mpr hd)
    rw [← hsplit] at hd
    rcases List.mem_append.mp hd with h5 | h5
    · exact List.mem_takeWhile_imp h5
    · exact h4 d h5
  rw [hall c hc] at hns
  cases hns

theorem foldl_fetchStep_rest (rest : List PyStr) (its : List CommitState)
    (L R : Option PyStr) :
    ((rest.map (fun b => '\n' :: b)) ++ [['\n']]).foldl fetchStep (its, L, R, false) =
      (its ++ rest.filterMap commitRec, L, R, false) := by
  induction rest generalizing its with
  | nil =>
    have hskip : (pyStrip ['\n']).isEmpty = true := rfl
    simp [fetchStep, hskip]
  | cons b rest2 ih =>
    simp only [List.map_cons, List.cons_append, List.foldl_cons, List.filterMap_cons]
    by_cases hb : (pyStrip b).isEmpty
    · have h1 : (pyStrip ('\n' :: b)).isEmpty = true := by
        rw [pyStrip_cons_space '\n' b rfl]; exact hb
      have h2 : fetchStep (its, L, R, false) ('\n' :: b) = (its, L, R, false) := by
        simp [fetchStep, h1]
      have h3 : commitRec b = none := by simp [commitRec, hb]
      rw [h2, h3, ih its]
    · have h1 : (pyStrip ('\n' :: b)).isEmpty = false := by
        rw [pyStrip_cons_space '\n' b rfl]; simpa using hb
      have hsg := scanBody_signals_of_false L R ('\n' :: b)
      have hst : (scanBody false L R ('\n' :: b)).st = (scanBody false none none b).st := by
        rw [scanBody_newline]; exact scanBody_st_congr false false L R none none b
      have h2 : fetchStep (its, L, R, false) ('\n' :: b) =
          (if stateNonempty (scanBody false none none b).st then
            its ++ [(scanBody false none none b).st] else its, L, R, false) := by
        simp only [fetchStep, h1, Bool.false_eq_true, if_false]
        rw [hsg.1, hsg.2, hst]
      rw [h2]
      by_cases hne : stateNonempty (scanBody false none none b).st
      · have h3 : commitRec b = some (scanBody false none none b).st := by
          simp [commitRec, hb, hne]
        rw [if_pos hne, h3, ih (its ++ [(scanBody false none none b).st])]
        simp
      · have h3 : commitRec b = none := by
          simp [commitRec, hb, hne]
        rw [if_neg hne, h3, ih its]

/-- C7: `fetch_git_state` takes `last_test_error` / `last_review_issues`
only from the trailers of the single most recent matching commit body
(accepting both the `Lisa-` and the legacy `Tralph-` scheme on read,
leaving a signal null when the trailer value is the literal `"none"` or
when no commit matches / git fails), and the history it returns is the
first (most recent) 3 per-commit trailer records. -/
theorem claim_C7 :
    (∀ (b0 : PyStr) (rest : List PyStr),
      (pyStrip b0).isEmpty = false →
      (∀ b ∈ b0 :: rest, '\x00' ∉ b) →
      fetch_git_state true (gitLogOut (b0 :: rest)) =
        { iterations := ((b0 :: rest).filterMap commitRec).take 3,
          last_test_error := bodyLTE b0,
          last_review_issues := bodyLRI b0 }) ∧
    (∀ s, fetch_git_state false s =
      { iterations := [], last_test_error := none, last_review_issues := none }) ∧
    fetch_git_state true (gitLogOut []) =
      { iterations := [], last_test_error := none, last_review_issues := none } ∧
    (fetch_git_state true (gitLogOut
      [pys "feat(lisa): [X-1] a\n\nLisa-Test-Error: boom"])).last_test_error
      = some (pys "boom") ∧
    (fetch_git_state true (gitLogOut
      [pys "feat(tralph): [X-1] a\n\nTralph-Test-Error: boom"])).last_test_error
      = some (pys "boom") ∧
    (fetch_git_state true (gitLogOut
      [pys "Lisa-Test-Error: none\nLisa-Review-Issues: bad naming"])).last_test_error
      = none ∧
    (fetch_git_state true (gitLogOut
      [pys "Lisa-Test-Error: none\nLisa-Review-Issues: bad naming"])).last_review_issues
      = some (pys "bad naming") ∧
    (∀ rc s, (fetch_git_state rc s).iterations.length ≤ 3) := by
  refine ⟨?_, ?_, by rfl, by rfl, by rfl, by rfl, by rfl, ?_⟩
  · intro b0 rest h0 hnul
    have hmem : '\x00' ∈ gitLogOut (b0 :: rest) := by
      have : gitLogOut (b0 :: rest) = (b0 ++ ['\x00', '\n']) ++ gitLogOut rest := by
        simp [gitLogOut]
      rw [this]
      exact List.mem_append.mpr (Or.inl (List.mem_append.mpr (Or.inr (by simp))))
    have hne : (pyStrip (gitLogOut (b0 :: rest))).isEmpty = false :=
      pyStrip_ne_nil_of_mem _ '\x00' hmem rfl
    unfold fetch_git_state
    rw [if_neg (by simp [hne])]
    rw [split_gitLogOut_cons b0 rest (hnul b0 (List.mem_cons_self b0 rest))
      (fun x hx => hnul x (List.mem_cons_of_mem b0 hx))]
    rw [List.foldl_cons]
    have hstep : fetchStep ([], none, none, true) b0 =
        (if stateNonempty (scanBody false none none b0).st then
          [(scanBody false none none b0).st] else [], bodyLTE b0, bodyLRI b0, false) := by
      simp only [fetchStep, h0, Bool.false_eq_true, if_false]
      rw [show (scanBody true none none b0).st = (scanBody false none none b0).st from
        scanBody_st_congr true false none none none none b0]
      simp [bodyLTE, bodyLRI]
    rw [hstep, foldl_fetchStep_rest]
    have hfm : (if stateNonempty (scanBody false none none b0).st then
          [(scanBody false none none b0).st] else []) ++ rest.filterMap commitRec =
        ((b0 :: rest).filterMap commitRec) := by
      rw [List.filterMap_cons]
      by_cases hne2 : stateNonempty (scanBody false none none b0).st
      · have : commitRec b0 = some (scanBody false none none b0).st := by
          simp [commitRec, h0, hne2]
        rw [this, if_pos hne2]
        rfl
      · have : commitRec b0 = none := by simp [commitRec, h0, hne2]
        rw [this, if_neg hne2]
        rfl
    simp only [hfm]
  · intro s
    unfold fetch_git_state
    rw [if_pos (by simp)]
  · intro rc s
    unfold fetch_git_state
    split
    · simp
    · simp

/-- C7 witness: two concrete commit bodies (new scheme newest,
legacy scheme older); the signals come from the newest body only and
the history has both records. -/
theorem claim_C7_witness :
    fetch_git_state true (gitLogOut
      [pys "feat(lisa): [X-1] t\n\nLisa-Iteration: 2\nLisa-Test-Error: boom\nLisa-Review-Issues: none",
       pys "feat(tralph): [X-1] t\n\nTralph-Iteration: 1\nTralph-Test-Error: old err"]) =
      { iterations :=
          (([pys "feat(lisa): [X-1] t\n\nLisa-Iteration: 2\nLisa-Test-Error: boom\nLisa-Review-Issues: none",
             pys "feat(tralph): [X-1] t\n\nTralph-Iteration: 1\nTralph-Test-Error: old err"]).filterMap
            commitRec).take 3,
        last_test_error :=
          bodyLTE (pys "feat(lisa): [X-1] t\n\nLisa-Iteration: 2\nLisa-Test-Error: boom\nLisa-Review-Issues: none"),
        last_review_issues :=
          bodyLRI (pys "feat(lisa): [X-1] t\n\nLisa-Iteration: 2\nLisa-Test-Error: boom\nLisa-Review-Issues: none") } := by
  exact claim_C7.1 _ _ (by rfl) (by decide)

theorem dropPre_pre (p x : PyStr) : dropPre p (p ++ x) = some x := by
  induction p with
  | nil => rfl
  | cons c cs ih => simp [dropPre, ih]

theorem takeWhile_append_stop (p : Char → Bool) (a : PyStr) (c : Char) (y : PyStr)
    (ha : ∀ x ∈ a, p x = true) (hc : p c = false) :
    (a ++ c :: y).takeWhile p = a := by
  induction a with
  | nil => simp [List.takeWhile_cons, hc]
  | cons d ds ih =>
    have hd : p d = true := ha d (List.mem_cons_self d ds)
    have hds : ∀ x ∈ ds, p x = true := fun x hx => ha x (List.mem_cons_of_mem d hx)
    simp [List.takeWhile_cons, hd, ih hds]

theorem headD_append_left (a b : PyStr) (d : Char) (ha : a ≠ []) :
    (a ++ b).headD d = a.headD d := by
  cases a with
  | nil => cases ha rfl
  | cons c cs => rfl

theorem getLastD_append_right (a b : PyStr) (d : Char) (hb : b ≠ []) :
    (a ++ b).getLastD d = b.getLastD d := by
  rcases List.eq_nil_or_concat b with rfl | ⟨b', c, rfl⟩
  · cases hb rfl
  · simp only [List.concat_eq_append, ← List.append_assoc]
    simp [List.getLastD_concat]

theorem getLastD_irrel (l : PyStr) (a b : Char) (h : l ≠ []) :
    l.getLastD a = l.getLastD b := by
  rcases List.eq_nil_or_concat l with rfl | ⟨l', c, rfl⟩
  · cases h rfl
  · simp only [List.concat_eq_append]
    simp [List.getLastD_concat]

theorem headD_mem (l : PyStr) (d : Char) (h : l ≠ []) : l.headD d ∈ l := by
  cases l with
  | nil => cases h rfl
  | cons c cs => exact List.mem_cons_self c cs

theorem getLastD_mem (l : PyStr) (d : Char) (h : l ≠ []) : l.getLastD d ∈ l := by
  rcases List.eq_nil_or_concat l with rfl | ⟨l', c, rfl⟩
  · cases h rfl
  · simp only [List.concat_eq_append]
    simp [List.getLastD_concat]

theorem stripLeft_noop (s : PyStr) (h : isPySpace (s.headD 'x') = false) :
    stripLeft s = s := by
  cases s with
  | nil => rfl
  | cons c cs => simp only [List.headD_cons] at h; simp [stripLeft, List.dropWhile_cons, h]

theorem stripRight_noop (s : PyStr) (h : isPySpace (s.getLastD 'x') = false) :
    stripRight s = s := by
  rcases List.eq_nil_or_concat s with rfl | ⟨s', c, rfl⟩
  · rfl
  · simp only [List.concat_eq_append] at h ⊢
    rw [getLastD_append_right s' [c] 'x' (by simp),
      show List.getLastD [c] 'x' = c from rfl] at h
    simp [stripRight, List.dropWhile_cons, h]

theorem pyStrip_noop (s : PyStr) (h1 : isPySpace (s.headD 'x') = false)
    (h2 : isPySpace (s.getLastD 'x') = false) : pyStrip s = s := by
  rw [pyStrip, stripLeft_noop s h1, stripRight_noop s h2]

theorem stripRight_concat_space (s : PyStr) (c : Char) (h : isPySpace c = true) :
    stripRight (s ++ [c]) = stripRight s := by
  simp [stripRight, List.dropWhile_cons, h]

theorem dropWhile_append_ne_nil (p : Char → Bool) (a b : PyStr)
    (h : a.dropWhile p ≠ []) : (a ++ b).dropWhile p = a.dropWhile p ++ b := by
  induction a with
  | nil => cases h rfl
  | cons d ds ih =>
    by_cases hd : p d
    · rw [List.cons_append, List.dropWhile_cons, if_pos hd]
      rw [List.dropWhile_cons, if_pos hd] at h ⊢
      exact ih h
    · simp [List.dropWhile_cons, hd]

theorem pyStrip_concat_space (s : PyStr) (c : Char) (h : isPySpace c = true) :
    pyStrip (s ++ [c]) = pyStrip s := by
  unfold pyStrip
  by_cases hs : stripLeft s = []
  · have hall : ∀ d ∈ s, isPySpace d = true := List.dropWhile_eq_nil_iff.mp hs
    have hall2 : ∀ d ∈ s ++ [c], isPySpace d = true := by
      intro d hd
      rcases List.mem_append.mp hd with h1 | h1
      · exact hall d h1
      · simp only [List.mem_singleton] at h1; subst h1; exact h
    have hs2 : stripLeft (s ++ [c]) = [] := List.dropWhile_eq_nil_iff.mpr hall2
    rw [hs, hs2]
  · have hs2 : stripLeft (s ++ [c]) = stripLeft s ++ [c] :=
      dropWhile_append_ne_nil isPySpace s [c] hs
    rw [hs2, stripRight_concat_space _ _ h]

theorem toDec_all_digit (n : Nat) : ∀ c ∈ toDec n, c.isDigit = true := by
  induction n using Nat.strong_induction_on with
  | _ n ih =>
    intro c hc
    by_cases h : n < 10
    · rw [toDec, dif_pos h] at hc
      simp only [List.mem_singleton] at hc
      subst hc
      interval_cases n <;> decide
    · rw [toDec, dif_neg h] at hc
      rcases List.mem_append.mp hc with h1 | h1
      · exact ih (n / 10) (Nat.div_lt_self (by omega) (by omega)) c h1
      · simp only [List.mem_singleton] at h1
        subst h1
        have : n % 10 < 10 := Nat.mod_lt _ (by omega)
        interval_cases h2 : n % 10 <;> simp_all <;> decide

theorem toDec_ne_nil (n : Nat) : toDec n ≠ [] := by
  by_cases h : n < 10
  · rw [toDec, dif_pos h]; simp
  · rw [toDec, dif_neg h]; simp

theorem fromDec_append_digit (a : PyStr) (c : Char) :
    fromDec (a ++ [c]) = 10 * fromDec a + (c.toNat - 48) := by
  simp [fromDec, List.foldl_append]

theorem digitChar_toNat (d : Nat) (h : d < 10) : (Nat.digitChar d).toNat - 48 = d := by
  interval_cases d <;> decide

theorem fromDec_toDec (n : Nat) : fromDec (toDec n) = n := by
  induction n using Nat.strong_induction_on with
  | _ n ih =>
    by_cases h : n < 10
    · rw [toDec, dif_pos h]
      have : fromDec [Nat.digitChar n] = (Nat.digitChar n).toNat - 48 := by
        simp [fromDec]
      rw [this, digitChar_toNat n h]
    · rw [toDec, dif_neg h, fromDec_append_digit,
        ih (n / 10) (Nat.div_lt_self (by omega) (by omega)),
        digitChar_toNat (n % 10) (Nat.mod_lt _ (by omega))]
      omega

theorem digit_char_ne (c : Char) (h : c.isDigit = true) :
    isPySpace c = false ∧ c ≠ '\n' ∧ c ≠ '←' ∧ c ≠ ')' ∧ c ≠ '|' ∧
      c ≠ '-' ∧ c ≠ '+' ∧ c ≠ '*' := by
  refine ⟨?_, ?_, ?_, ?_, ?_, ?_, ?_, ?_⟩
  · by_contra hc
    simp only [Bool.not_eq_false] at hc
    simp only [isPySpace, Bool.or_eq_true, beq_iff_eq] at hc
    rcases hc with ((((e | e) | e) | e) | e) | e <;> subst e <;> exact absurd h (by decide)
  all_goals (intro e; subst e; exact absurd h (by decide))

theorem toDec_no_newline (n : Nat) : '\n' ∉ toDec n := by
  intro hmem
  exact absurd rfl (digit_char_ne '\n' (toDec_all_digit n '\n' hmem)).2.1

theorem toDec_no_pipe (n : Nat) : '|' ∉ toDec n := by
  intro hmem
  exact absurd rfl (digit_char_ne '|' (toDec_all_digit n '|' hmem)).2.2.2.2.1

theorem toDec_head_digit (n : Nat) : ((toDec n).headD 'x').isDigit = true :=
  toDec_all_digit n _ (headD_mem _ 'x' (toDec_ne_nil n))

theorem toDec_last_digit (n : Nat) : ((toDec n).getLastD 'x').isDigit = true :=
  toDec_all_digit n _ (getLastD_mem _ 'x' (toDec_ne_nil n))

theorem pyStrip_toDec (n : Nat) : pyStrip (toDec n) = toDec n :=
  pyStrip_noop _ (digit_char_ne _ (toDec_head_digit n)).1
    (digit_char_ne _ (toDec_last_digit n)).1

theorem toDec_ne_dash (n : Nat) : toDec n ≠ pys "-" := by
  intro e
  have : '-' ∈ toDec n := by rw [e]; decide
  exact absurd rfl (digit_char_ne '-' (toDec_all_digit n '-' this)).2.2.2.2.2.1

theorem pyInt_all_digit (s : PyStr) (hne : s ≠ []) (hd : ∀ c ∈ s, c.isDigit = true) :
    pyInt s = some (fromDec s : Int) := by
  cases s with
  | nil => cases hne rfl
  | cons c cs =>
    have hc : c.isDigit = true := hd c (List.mem_cons_self c cs)
    have h1 : c ≠ '-' := (digit_char_ne c hc).2.2.2.2.2.1
    have h2 : c ≠ '+' := (digit_char_ne c hc).2.2.2.2.2.2.1
    have hdig : pyIsDigit (c :: cs) = true := by
      simp only [pyIsDigit, List.isEmpty_cons, Bool.not_false, Bool.true_and,
        List.all_eq_true]
      exact fun x hx => hd x hx
    unfold pyInt
    split
    · next heq => cases heq; exact absurd rfl h1
    · next heq => cases heq; exact absurd rfl h2
    · rw [hdig]; rfl

theorem pyInt_toDec (n : Nat) : pyInt (toDec n) = some (n : Int) := by
  rw [pyInt_all_digit (toDec n) (toDec_ne_nil n) (toDec_all_digit n), fromDec_toDec]

theorem searchPipeNum_no_pipe (s : PyStr) (h : '|' ∉ s) : searchPipeNum s = none := by
  induction s with
  | nil => rfl
  | cons c cs ih =>
    have hc : ¬c = '|' := fun e => h (e ▸ List.mem_cons_self c cs)
    have hcs : '|' ∉ cs := fun m => h (List.mem_cons_of_mem c m)
    simp [searchPipeNum, hc, ih hcs]

theorem dropWhile_append_nil (p : Char → Bool) (a b : PyStr)
    (h : a.dropWhile p = []) : (a ++ b).dropWhile p = b.dropWhile p := by
  induction a with
  | nil => rfl
  | cons d ds ih =>
    rw [List.dropWhile_cons] at h
    by_cases hd : p d
    · rw [if_pos hd] at h
      rw [List.cons_append, List.dropWhile_cons, if_pos hd]
      exact ih h
    · rw [if_neg hd] at h
      cases h
    
theorem pyStrip_cons_nonspace (c : Char) (t : PyStr) (h : isPySpace c = false) :
    pyStrip (c :: t) = c :: stripRight t := by
  unfold pyStrip
  rw [stripLeft, List.dropWhile_cons, if_neg (by simp [h])]
  unfold stripRight
  rw [show (c :: t).reverse = t.reverse ++ [c] by simp]
  by_cases ht : t.reverse.dropWhile isPySpace = []
  · rw [dropWhile_append_nil _ _ _ ht, ht]
    simp [List.dropWhile_cons, h]
  · rw [dropWhile_append_ne_nil _ _ _ ht]
    simp

theorem pySplit_linesJoin (lines : List PyStr) (h : ∀ l ∈ lines, '\n' ∉ l) :
    pySplit '\n' (linesJoin lines) = lines ++ [[]] := by
  induction lines with
  | nil => rfl
  | cons l ls ih =>
    have hl : '\n' ∉ l := h l (List.mem_cons_self l ls)
    have hls : ∀ x ∈ ls, '\n' ∉ x := fun x hx => h x (List.mem_cons_of_mem l hx)
    show pySplit '\n' (l ++ '\n' :: linesJoin ls) = (l :: ls) ++ [[]]
    rw [pySplit_append_sep _ _ _ hl, ih hls]
    rfl

theorem isCurMarker_of_no_arrow (x : PyStr) (h : '←' ∉ x) : isCurMarker x = false := by
  unfold isCurMarker
  cases hdw : x.dropWhile isPySpace with
  | nil => rfl
  | cons c r =>
    have hc : c ∈ x := by
      have hsub := List.dropWhile_sublist (p := isPySpace) (l := x)
      rw [hdw] at hsub
      exact hsub.subset (List.mem_cons_self c r)
    have : c ≠ '←' := fun e => h (e ▸ hc)
    split
    · next heq => cases heq; exact absurd rfl this
    · rfl

theorem isCurMarker_cons_space (b : Char) (x : PyStr) (h : isPySpace b = true) :
    isCurMarker (b :: x) = isCurMarker x := by
  unfold isCurMarker
  rw [List.dropWhile_cons, if_pos (by simp [h])]

theorem marker_append_false (dt : PyStr) (harr : '←' ∉ dt) (hne : dt ≠ [])
    (hlast : isPySpace (dt.getLastD 'x') = false) :
    isCurMarker (dt ++ pys " ← current") = false := by
  induction dt with
  | nil => cases hne rfl
  | cons b bs ih =>
    by_cases hb : isPySpace b
    · cases hbs : bs with
      | nil =>
        subst hbs
        rw [show List.getLastD [b] 'x' = b from rfl] at hlast
        rw [hb] at hlast
        cases hlast
      | cons b2 bs2 =>
        rw [List.cons_append, isCurMarker_cons_space b _ hb]
        have harr2 : '←' ∉ bs := fun m => harr (List.mem_cons_of_mem b m)
        have hlast2 : isPySpace (bs.getLastD 'x') = false := by
          rw [hbs] at hlast ⊢
          rw [show (b :: b2 :: bs2).getLastD 'x' = (b2 :: bs2).getLastD 'x' by
            rw [List.getLastD_cons]
            exact getLastD_irrel _ b 'x' (by simp)] at hlast
          exact hlast
        rw [← hbs]
        exact ih harr2 (by rw [hbs]; simp) hlast2
    · unfold isCurMarker
      rw [List.cons_append, List.dropWhile_cons, if_neg (by simp [hb])]
      have : b ≠ '←' := fun e => harr (e ▸ List.mem_cons_self b bs)
      split
      · next heq => cases heq; exact absurd rfl this
      · rfl

theorem grp4Aux_all (acc rest : PyStr) (h : '←' ∉ rest) :
    grp4Aux acc rest = acc ++ rest := by
  induction rest generalizing acc with
  | nil => simp [grp4Aux]
  | cons b bs ih =>
    rw [grp4Aux, if_neg (by simp [isCurMarker_of_no_arrow _ h])]
    rw [ih (acc ++ [b]) (fun m => h (List.mem_cons_of_mem b m))]
    simp

theorem grp4Aux_marker (acc dt : PyStr) (harr : '←' ∉ dt)
    (hopt : dt = [] ∨ isPySpace (dt.getLastD 'x') = false) :
    grp4Aux acc (dt ++ pys " ← current") = acc ++ dt := by
  induction dt generalizing acc with
  | nil =>
    have hM : pys " ← current" = ' ' :: pys "← current" := rfl
    rw [List.nil_append, hM, grp4Aux,
      if_pos (show isCurMarker (' ' :: pys "← current") = true from rfl)]
    simp
  | cons b bs ih =>
    have hlast : isPySpace ((b :: bs).getLastD 'x') = false := by
      rcases hopt with h1 | h1
      · cases h1
      · exact h1
    have hfalse : isCurMarker (b :: (bs ++ pys " ← current")) = false := by
      have he : b :: (bs ++ pys " ← current") = (b :: bs) ++ pys " ← current" := rfl
      rw [he]
      exact marker_append_false (b :: bs) harr (by simp) hlast
    rw [List.cons_append, grp4Aux, if_neg (by simp [hfalse])]
    have harr2 : '←' ∉ bs := fun m => harr (List.mem_cons_of_mem b m)
    have hopt2 : bs = [] ∨ isPySpace (bs.getLastD 'x') = false := by
      cases hbs : bs with
      | nil => exact Or.inl rfl
      | cons b2 bs2 =>
        refine Or.inr ?_
        rw [← hbs]
        rw [List.getLastD_cons, hbs] at hlast
        rw [hbs, getLastD_irrel _ 'x' b (by simp)]
        exact hlast
    rw [ih (acc ++ [b]) harr2 hopt2]
    simp

theorem drop_len_append (a b : PyStr) : (a ++ b).drop a.length = b := by
  induction a with
  | nil => rfl
  | cons c cs ih => simp [ih]

theorem parseStepLine_render_tick (b : Char) (hb : b = ' ' ∨ b = 'x') (id : Nat)
    (t0 : Char) (ts : PyStr) (ht2 : ')' ∉ t0 :: ts) (d0 : Char) (R : PyStr) :
    parseStepLine (pys "- [" ++ [b] ++ pys "] **" ++ toDec id ++ pys "**" ++
      (pys " (" ++ (t0 :: ts) ++ pys ")") ++ pys ": " ++ (d0 :: R)) =
    some { id := id, description := pyStrip (grp4Aux [d0] R), ticket := t0 :: ts,
           done := b == 'x', files := [] } := by
  have e1 : pys "- [" = ['-', ' ', '['] := rfl
  have e3 : pys "] **" = [']', ' ', '*', '*'] := rfl
  have e4 : pys "**" = ['*', '*'] := rfl
  have e5 : pys " (" = [' ', '('] := rfl
  have e6 : pys ")" = [')'] := rfl
  have e7 : pys ": " = [':', ' '] := rfl
  have e8 : pys "): " = [')', ':', ' '] := rfl
  simp only [e1, e3, e4, e5, e6, e7, List.append_assoc, List.cons_append,
    List.nil_append]
  obtain ⟨u, us, hu⟩ := List.exists_cons_of_ne_nil (toDec_ne_nil id)
  have hud : u.isDigit = true := toDec_all_digit id u (hu ▸ List.mem_cons_self u us)
  have husd : ∀ c ∈ u :: us, c.isDigit = true := fun c hc => toDec_all_digit id c (hu ▸ hc)
  have hfd : fromDec (u :: us) = id := by rw [← hu]; exact fromDec_toDec id
  rw [hu]
  have hds2 : List.takeWhile Char.isDigit
      (us ++ '*' :: '*' :: ' ' :: '(' :: t0 :: (ts ++ ')' :: ':' :: ' ' :: d0 :: R)) = us :=
    takeWhile_append_stop Char.isDigit us '*'
      ('*' :: ' ' :: '(' :: t0 :: (ts ++ ')' :: ':' :: ' ' :: d0 :: R))
      (fun c hc => husd c (List.mem_cons_of_mem u hc)) (by decide)
  have ht0 : ¬ t0 = ')' := fun e => ht2 (e ▸ List.mem_cons_self t0 ts)
  have htw : List.takeWhile (fun c => !decide (c = ')'))
      (t0 :: (ts ++ ')' :: ':' :: ' ' :: d0 :: R)) = t0 :: ts := by
    have h := takeWhile_append_stop (fun c => !decide (c = ')')) (t0 :: ts) ')'
      (':' :: ' ' :: d0 :: R)
      (fun x hx => by
        simp only [Bool.not_eq_eq_eq_not, Bool.not_true, decide_eq_false_iff_not]
        exact fun e => ht2 (e ▸ hx))
      (by simp)
    simpa using h
  simp [parseStepLine, parseAfterStars, grp4, dropPre, e8, hb,
    hds2, htw, ht0, hud, hfd, drop_len_append, List.isEmpty_iff]

theorem parseStepLine_render_notick (b : Char) (hb : b = ' ' ∨ b = 'x') (id : Nat)
    (d0 : Char) (R : PyStr) :
    parseStepLine (pys "- [" ++ [b] ++ pys "] **" ++ toDec id ++ pys "**" ++
      pys ": " ++ (d0 :: R)) =
    some { id := id, description := pyStrip (grp4Aux [d0] R), ticket := [],
           done := b == 'x', files := [] } := by
  have e1 : pys "- [" = ['-', ' ', '['] := rfl
  have e3 : pys "] **" = [']', ' ', '*', '*'] := rfl
  have e4 : pys "**" = ['*', '*'] := rfl
  have e7 : pys ": " = [':', ' '] := rfl
  simp only [e1, e3, e4, e7, List.append_assoc, List.cons_append, List.nil_append]
  obtain ⟨u, us, hu⟩ := List.exists_cons_of_ne_nil (toDec_ne_nil id)
  have hud : u.isDigit = true := toDec_all_digit id u (hu ▸ List.mem_cons_self u us)
  have husd : ∀ c ∈ u :: us, c.isDigit = true := fun c hc => toDec_all_digit id c (hu ▸ hc)
  have hfd : fromDec (u :: us) = id := by rw [← hu]; exact fromDec_toDec id
  rw [hu]
  have hds2 : List.takeWhile Char.isDigit
      (us ++ '*' :: '*' :: ':' :: ' ' :: d0 :: R) = us :=
    takeWhile_append_stop Char.isDigit us '*'
      ('*' :: ':' :: ' ' :: d0 :: R)
      (fun c hc => husd c (List.mem_cons_of_mem u hc)) (by decide)
  simp [parseStepLine, parseAfterStars, grp4, dropPre, hb,
    hds2, hud, hfd, drop_len_append, List.isEmpty_iff]

theorem pyStartsWith_head_ne (c p : Char) (x ps : PyStr) (h : ¬ c = p) :
    pyStartsWith (c :: x) (p :: ps) = false := by
  simp [pyStartsWith, h]

theorem parseStepLine_head_ne (c : Char) (x : PyStr) (h : ¬ c = '-') :
    parseStepLine (c :: x) = none := by
  have e1 : pys "- [" = ['-', ' ', '['] := rfl
  simp [parseStepLine, e1, dropPre, h]

theorem tableRowStep_not_table (acc : Nat × Option Int) (l0 : PyStr)
    (h1 : pyStartsWith (pyStrip l0) (pys "| Iterations |") = false)
    (h2 : pyStartsWith (pyStrip l0) (pys "| Current step |") = false) :
    tableRowStep acc l0 = acc := by
  simp [tableRowStep, h1, h2]

theorem pyStrip_wrap (c e : Char) (mid : PyStr) (hc : isPySpace c = false)
    (he : isPySpace e = false) :
    pyStrip ((c :: mid) ++ [e]) = (c :: mid) ++ [e] := by
  refine pyStrip_noop _ ?_ ?_
  · rw [headD_append_left _ _ _ (List.cons_ne_nil c mid)]
    exact hc
  · rw [List.getLastD_concat]
    exact he

theorem pipe_notin_valcell (n : Nat) : '|' ∉ ' ' :: (toDec n ++ [' ']) := by
  simp only [List.mem_cons, List.mem_append, List.mem_singleton, not_or]
  exact ⟨by decide, toDec_no_pipe n, by decide⟩

theorem tableRowStep_iterations_row (N : Nat) (acc : Nat × Option Int) :
    tableRowStep acc (pys "| Iterations | " ++ (toDec N ++ pys " |")) = acc := by
  have hform : pys "| Iterations | " ++ (toDec N ++ pys " |") =
      ('|' :: (pys " Iterations | " ++ toDec N ++ [' '])) ++ ['|'] := by
    have hA : pys "| Iterations | " = '|' :: pys " Iterations | " := rfl
    have hB : pys " |" = [' ', '|'] := rfl
    simp [hA, hB]
  have hstrip : pyStrip (pys "| Iterations | " ++ (toDec N ++ pys " |")) =
      pys "| Iterations | " ++ (toDec N ++ pys " |") := by
    rw [hform, pyStrip_wrap _ _ _ (by decide) (by decide)]
  have hsw1 : pyStartsWith (pys "| Iterations | " ++ (toDec N ++ pys " |"))
      (pys "| Iterations |") = true := by
    have h2 : pys "| Iterations | " ++ (toDec N ++ pys " |") =
        pys "| Iterations |" ++ (' ' :: (toDec N ++ pys " |")) := by
      have hA : pys "| Iterations | " = pys "| Iterations |" ++ [' '] := rfl
      simp [hA]
    rw [h2]
    exact pyStartsWith_append_self _ _
  have hsplit : pySplit '|' (pys "| Iterations | " ++ (toDec N ++ pys " |")) =
      [[], pys " Iterations ", ' ' :: (toDec N ++ [' ']), []] := by
    have h3 : pys "| Iterations | " ++ (toDec N ++ pys " |") =
        [] ++ '|' :: (pys " Iterations " ++ '|' ::
          ((' ' :: (toDec N ++ [' '])) ++ '|' :: ([] : PyStr))) := by
      have hA : pys "| Iterations | " =
          '|' :: (pys " Iterations " ++ '|' :: [' ']) := rfl
      have hB : pys " |" = [' ', '|'] := rfl
      simp [hA, hB]
    rw [h3, pySplit_append_sep '|' [] _ (by decide),
      pySplit_append_sep '|' _ _ (by decide),
      pySplit_append_sep '|' _ _ (pipe_notin_valcell N)]
    rfl
  simp [tableRowStep, hstrip, hsw1, hsplit,
    searchPipeNum_no_pipe _ (pipe_notin_valcell N)]

theorem tableRowStep_current_row (n : Nat) (acc : Nat × Option Int) :
    tableRowStep acc (pys "| Current step | " ++ (toDec n ++ pys " |")) =
      (acc.1, some (n : Int)) := by
  have hform : pys "| Current step | " ++ (toDec n ++ pys " |") =
      ('|' :: (pys " Current step | " ++ toDec n ++ [' '])) ++ ['|'] := by
    have hA : pys "| Current step | " = '|' :: pys " Current step | " := rfl
    have hB : pys " |" = [' ', '|'] := rfl
    simp [hA, hB]
  have hstrip : pyStrip (pys "| Current step | " ++ (toDec n ++ pys " |")) =
      pys "| Current step | " ++ (toDec n ++ pys " |") := by
    rw [hform, pyStrip_wrap _ _ _ (by decide) (by decide)]
  have hsw1 : pyStartsWith (pys "| Current step | " ++ (toDec n ++ pys " |"))
      (pys "| Iterations |") = false := by
    have hA : pys "| Current step | " = '|' :: ' ' :: 'C' :: pys "urrent step | " := rfl
    have hP : pys "| Iterations |" = '|' :: ' ' :: 'I' :: pys "terations |" := rfl
    rw [hA, hP]
    simp [pyStartsWith]
  have hsw2 : pyStartsWith (pys "| Current step | " ++ (toDec n ++ pys " |"))
      (pys "| Current step |") = true := by
    have h2 : pys "| Current step | " ++ (toDec n ++ pys " |") =
        pys "| Current step |" ++ (' ' :: (toDec n ++ pys " |")) := by
      have hA : pys "| Current step | " = pys "| Current step |" ++ [' '] := rfl
      simp [hA]
    rw [h2]
    exact pyStartsWith_append_self _ _
  have hsplit : pySplit '|' (pys "| Current step | " ++ (toDec n ++ pys " |")) =
      [[], pys " Current step ", ' ' :: (toDec n ++ [' ']), []] := by
    have h3 : pys "| Current step | " ++ (toDec n ++ pys " |") =
        [] ++ '|' :: (pys " Current step " ++ '|' ::
          ((' ' :: (toDec n ++ [' '])) ++ '|' :: ([] : PyStr))) := by
      have hA : pys "| Current step | " =
          '|' :: (pys " Current step " ++ '|' :: [' ']) := rfl
      have hB : pys " |" = [' ', '|'] := rfl
      simp [hA, hB]
    rw [h3, pySplit_append_sep '|' [] _ (by decide),
      pySplit_append_sep '|' _ _ (by decide),
      pySplit_append_sep '|' _ _ (pipe_notin_valcell n)]
    rfl
  have hval : pyStrip (' ' :: (toDec n ++ [' '])) = toDec n := by
    rw [pyStrip_cons_space _ _ (by decide), pyStrip_concat_space _ _ (by decide),
      pyStrip_toDec]
  simp [tableRowStep, hstrip, hsw1, hsw2, hsplit, hval, toDec_ne_nil,
    toDec_ne_dash, pyInt_toDec]

theorem tableRowStep_lastrun_row (tm : PyStr) (acc : Nat × Option Int) :
    tableRowStep acc (pys "| Last run | " ++ (tm ++ pys " |")) = acc := by
  have hform : pys "| Last run | " ++ (tm ++ pys " |") =
      ('|' :: (pys " Last run | " ++ tm ++ [' '])) ++ ['|'] := by
    have hA : pys "| Last run | " = '|' :: pys " Last run | " := rfl
    have hB : pys " |" = [' ', '|'] := rfl
    simp [hA, hB]
  have hstrip : pyStrip (pys "| Last run | " ++ (tm ++ pys " |")) =
      pys "| Last run | " ++ (tm ++ pys " |") := by
    rw [hform, pyStrip_wrap _ _ _ (by decide) (by decide)]
  have hsw1 : pyStartsWith (pys "| Last run | " ++ (tm ++ pys " |"))
      (pys "| Iterations |") = false := by
    have hA : pys "| Last run | " = '|' :: ' ' :: 'L' :: pys "ast run | " := rfl
    have hP : pys "| Iterations |" = '|' :: ' ' :: 'I' :: pys "terations |" := rfl
    rw [hA, hP]
    simp [pyStartsWith]
  have hsw2 : pyStartsWith (pys "| Last run | " ++ (tm ++ pys " |"))
      (pys "| Current step |") = false := by
    have hA : pys "| Last run | " = '|' :: ' ' :: 'L' :: pys "ast run | " := rfl
    have hP : pys "| Current step |" = '|' :: ' ' :: 'C' :: pys "urrent step |" := rfl
    rw [hA, hP]
    simp [pyStartsWith]
  refine tableRowStep_not_table acc _ ?_ ?_
  · rw [hstrip]; exact hsw1
  · rw [hstrip]; exact hsw2

theorem pyStrip_header (br : PyStr) :
    pyStrip (pys "🤖 **lisa** · `" ++ (br ++ pys "`")) =
      '🤖' :: stripRight (pys " **lisa** · `" ++ (br ++ pys "`")) := by
  have hA : pys "🤖 **lisa** · `" = '🤖' :: pys " **lisa** · `" := rfl
  rw [hA, List.cons_append, pyStrip_cons_nonspace _ _ (by decide)]

theorem tableRowStep_header (br : PyStr) (acc : Nat × Option Int) :
    tableRowStep acc (pys "🤖 **lisa** · `" ++ (br ++ pys "`")) = acc := by
  refine tableRowStep_not_table acc _ ?_ ?_
  · rw [pyStrip_header]
    have hP : pys "| Iterations |" = '|' :: pys " Iterations |" := rfl
    rw [hP]
    exact pyStartsWith_head_ne _ _ _ _ (by decide)
  · rw [pyStrip_header]
    have hP : pys "| Current step |" = '|' :: pys " Current step |" := rfl
    rw [hP]
    exact pyStartsWith_head_ne _ _ _ _ (by decide)

theorem parseStepLine_header (br : PyStr) :
    parseStepLine (pyStrip (pys "🤖 **lisa** · `" ++ (br ++ pys "`"))) = none := by
  rw [pyStrip_header]
  exact parseStepLine_head_ne _ _ (by decide)

theorem stripRight_append (X d : PyStr) (hne : d ≠ [])
    (hd : isPySpace (d.getLastD 'x') = false) :
    stripRight (X ++ d) = X ++ d := by
  have hsr : stripRight d = d := stripRight_noop d hd
  have hdw : d.reverse.dropWhile isPySpace = d.reverse := by
    have := congrArg List.reverse hsr
    rw [stripRight, List.reverse_reverse] at this
    exact this
  have hdwne : d.reverse.dropWhile isPySpace ≠ [] := by
    rw [hdw]
    simpa using hne
  rw [stripRight, List.reverse_append, dropWhile_append_ne_nil _ _ _ hdwne, hdw]
  simp

theorem pyStrip_line (c : Char) (T d : PyStr) (hc : isPySpace c = false)
    (hne : d ≠ []) (hd : isPySpace (d.getLastD 'x') = false) :
    pyStrip (c :: (T ++ d)) = c :: (T ++ d) := by
  rw [pyStrip_cons_nonspace _ _ hc, stripRight_append _ _ hne hd]

theorem tableRowStep_head_ne (acc : Nat × Option Int) (l0 : PyStr) (c : Char)
    (Y : PyStr) (h : pyStrip l0 = c :: Y) (hc : ¬ c = '|') :
    tableRowStep acc l0 = acc := by
  refine tableRowStep_not_table acc _ ?_ ?_
  · rw [h, show pys "| Iterations |" = '|' :: pys " Iterations |" from rfl]
    exact pyStartsWith_head_ne _ _ _ _ hc
  · rw [h, show pys "| Current step |" = '|' :: pys " Current step |" from rfl]
    exact pyStartsWith_head_ne _ _ _ _ hc

theorem parse_line_notick (b : Char) (hb : b = ' ' ∨ b = 'x') (i : Nat)
    (a : Char) (r : PyStr) (harr : '←' ∉ a :: r) (hhead : isPySpace a = false)
    (hlast : isPySpace ((a :: r).getLastD 'x') = false) :
    parseStepLine (pyStrip ('-' :: ((pys " [" ++ (b :: (pys "] **" ++
        (toDec i ++ pys "**: ")))) ++ (a :: r)))) =
    some { id := i, description := a :: r, ticket := [], done := b == 'x',
           files := [] } := by
  rw [pyStrip_line '-' _ _ (by decide) (by simp) hlast]
  rw [show '-' :: ((pys " [" ++ (b :: (pys "] **" ++ (toDec i ++ pys "**: ")))) ++
      (a :: r)) =
      pys "- [" ++ [b] ++ pys "] **" ++ toDec i ++ pys "**" ++ pys ": " ++ (a :: r) from by
    have e1 : pys "- [" = ['-', ' ', '['] := rfl
    have e2 : pys " [" = [' ', '['] := rfl
    have e3 : pys "] **" = [']', ' ', '*', '*'] := rfl
    have e4 : pys "**" = ['*', '*'] := rfl
    have e7 : pys ": " = [':', ' '] := rfl
    have e9 : pys "**: " = ['*', '*', ':', ' '] := rfl
    simp [e1, e2, e3, e4, e7, e9]]
  rw [parseStepLine_render_notick b hb i a r]
  have harr' : '←' ∉ r := fun m => harr (List.mem_cons_of_mem a m)
  rw [grp4Aux_all [a] r harr']
  rw [show pyStrip ([a] ++ r) = a :: r from by
    have hc : ([a] ++ r : PyStr) = a :: r := rfl
    rw [hc]
    exact pyStrip_noop _ (by simpa using hhead) hlast]

theorem parse_line_cur_tick (i : Nat) (k0 : Char) (ks : PyStr) (hk : ')' ∉ k0 :: ks)
    (a : Char) (r : PyStr) (harr : '←' ∉ a :: r) (hhead : isPySpace a = false)
    (hlast : isPySpace ((a :: r).getLastD 'x') = false) :
    parseStepLine (pyStrip ('-' :: ((pys " [ ] **" ++ (toDec i ++ (pys "** (" ++
        ((k0 :: ks) ++ pys "): ")))) ++ (a :: (r ++ pys " ← current"))))) =
    some { id := i, description := a :: r, ticket := k0 :: ks, done := false,
           files := [] } := by
  have hdlast : isPySpace ((a :: (r ++ pys " ← current")).getLastD 'x') = false := by
    rw [List.getLastD_cons, getLastD_append_right _ _ _ (by decide)]
    rfl
  rw [pyStrip_line '-' _ _ (by decide) (by simp) hdlast]
  rw [show '-' :: ((pys " [ ] **" ++ (toDec i ++ (pys "** (" ++
      ((k0 :: ks) ++ pys "): ")))) ++ (a :: (r ++ pys " ← current"))) =
      pys "- [" ++ [' '] ++ pys "] **" ++ toDec i ++ pys "**" ++
        (pys " (" ++ (k0 :: ks) ++ pys ")") ++ pys ": " ++
        (a :: (r ++ pys " ← current")) from by
    have e1 : pys "- [" = ['-', ' ', '['] := rfl
    have e2 : pys " [ ] **" = [' ', '[', ' ', ']', ' ', '*', '*'] := rfl
    have e3 : pys "] **" = [']', ' ', '*', '*'] := rfl
    have e4 : pys "**" = ['*', '*'] := rfl
    have e5 : pys " (" = [' ', '('] := rfl
    have e6 : pys ")" = [')'] := rfl
    have e7 : pys ": " = [':', ' '] := rfl
    have e9 : pys "** (" = ['*', '*', ' ', '('] := rfl
    have e10 : pys "): " = [')', ':', ' '] := rfl
    simp [e1, e2, e3, e4, e5, e6, e7, e9, e10]]
  rw [parseStepLine_render_tick ' ' (Or.inl rfl) i k0 ks hk a (r ++ pys " ← current")]
  have harr' : '←' ∉ r := fun m => harr (List.mem_cons_of_mem a m)
  have hopt : r = [] ∨ isPySpace (r.getLastD 'x') = false := by
    cases hr : r with
    | nil => exact Or.inl rfl
    | cons y l =>
      refine Or.inr ?_
      rw [← hr]
      rw [List.getLastD_cons, hr] at hlast
      rw [hr, getLastD_irrel _ 'x' a (by simp)]
      exact hlast
  rw [grp4Aux_marker [a] r harr' hopt]
  rw [show pyStrip ([a] ++ r) = a :: r from by
    have hc : ([a] ++ r : PyStr) = a :: r := rfl
    rw [hc]
    exact pyStrip_noop _ (by simpa using hhead) hlast]
  rfl

theorem build_lines (br tm : PyStr) (N i1 i2 i3 : Nat) (a1 a2 a3 k0 : Char)
    (r1 r2 r3 ks : PyStr) (h21 : ¬ i2 = i1) (h23 : ¬ i2 = i3) (hi2 : ¬ i2 = 0) :
    build_state_comment br N (some i2)
      [{ id := i1, description := a1 :: r1, ticket := [], done := true, files := [] },
       { id := i2, description := a2 :: r2, ticket := k0 :: ks, done := false, files := [] },
       { id := i3, description := a3 :: r3, ticket := [], done := false, files := [] }]
      [] [] none tm =
    linesJoin
      [pys "🤖 **lisa** · `" ++ (br ++ pys "`"),
       [],
       pys "## Plan",
       '-' :: ((pys " [" ++ ('x' :: (pys "] **" ++ (toDec i1 ++ pys "**: ")))) ++ (a1 :: r1)),
       '-' :: ((pys " [ ] **" ++ (toDec i2 ++ (pys "** (" ++ ((k0 :: ks) ++ pys "): ")))) ++
         (a2 :: (r2 ++ pys " ← current"))),
       '-' :: ((pys " [" ++ (' ' :: (pys "] **" ++ (toDec i3 ++ pys "**: ")))) ++ (a3 :: r3)),
       [],
       pys "| Field | Value |",
       pys "|-------|-------|",
       pys "| Iterations | " ++ (toDec N ++ pys " |"),
       pys "| Current step | " ++ (toDec i2 ++ pys " |"),
       pys "| Last run | " ++ (tm ++ pys " |"),
       [],
       pys "**Log:**"] := by
  have e1 : pys "🤖 **lisa** · `" = '🤖' :: pys " **lisa** · `" := rfl
  have e1b : pys " **lisa** · `" =
      [' ', '*', '*', 'l', 'i', 's', 'a', '*', '*', ' ', '·', ' ', '`'] := rfl
  have e2 : pys "`" = ['`'] := rfl
  have e3 : pys "\n\n" = ['\n', '\n'] := rfl
  have e4 : pys "## Plan\n" = ['#', '#', ' ', 'P', 'l', 'a', 'n', '\n'] := rfl
  have e4b : pys "## Plan" = ['#', '#', ' ', 'P', 'l', 'a', 'n'] := rfl
  have e5 : pys "\n" = ['\n'] := rfl
  have e6 : pys "- [" = ['-', ' ', '['] := rfl
  have e7 : pys "x" = ['x'] := rfl
  have e8 : pys " " = [' '] := rfl
  have e9 : pys "] **" = [']', ' ', '*', '*'] := rfl
  have e10 : pys "**" = ['*', '*'] := rfl
  have e11 : pys " (" = [' ', '('] := rfl
  have e12 : pys ")" = [')'] := rfl
  have e13 : pys ": " = [':', ' '] := rfl
  have e14 : pys " ← current" =
      [' ', '←', ' ', 'c', 'u', 'r', 'r', 'e', 'n', 't'] := rfl
  have e15 : pys " [" = [' ', '['] := rfl
  have e16 : pys "**: " = ['*', '*', ':', ' '] := rfl
  have e17 : pys " [ ] **" = [' ', '[', ' ', ']', ' ', '*', '*'] := rfl
  have e18 : pys "** (" = ['*', '*', ' ', '('] := rfl
  have e19 : pys "): " = [')', ':', ' '] := rfl
  have e20 : pys "| Field | Value |\n|-------|-------|\n| Iterations | " =
      pys "| Field | Value |" ++ '\n' :: (pys "|-------|-------|" ++ '\n' ::
        pys "| Iterations | ") := rfl
  have e21 : pys " |\n| Current step | " =
      pys " |" ++ '\n' :: pys "| Current step | " := rfl
  have e22 : pys " |\n| Last run | " = pys " |" ++ '\n' :: pys "| Last run | " := rfl
  have e23 : pys " |\n\n**Log:**\n" = pys " |" ++ '\n' :: '\n' :: (pys "**Log:**" ++ ['\n']) := rfl
  have e24 : pys "| Field | Value |" =
      ['|', ' ', 'F', 'i', 'e', 'l', 'd', ' ', '|', ' ', 'V', 'a', 'l', 'u', 'e', ' ', '|'] := rfl
  have e25 : pys "|-------|-------|" =
      ['|', '-', '-', '-', '-', '-', '-', '-', '|', '-', '-', '-', '-', '-', '-', '-', '|'] := rfl
  have e26 : pys "| Iterations | " =
      ['|', ' ', 'I', 't', 'e', 'r', 'a', 't', 'i', 'o', 'n', 's', ' ', '|', ' '] := rfl
  have e27 : pys "| Current step | " =
      ['|', ' ', 'C', 'u', 'r', 'r', 'e', 'n', 't', ' ', 's', 't', 'e', 'p', ' ', '|', ' '] := rfl
  have e28 : pys "| Last run | " =
      ['|', ' ', 'L', 'a', 's', 't', ' ', 'r', 'u', 'n', ' ', '|', ' '] := rfl
  have e29 : pys " |" = [' ', '|'] := rfl
  have e30 : pys "**Log:**" = ['*', '*', 'L', 'o', 'g', ':', '*', '*'] := rfl
  simp only [build_state_comment, stepLine, format_exploration_markdown, linesJoin,
    List.foldr_cons, List.foldr_nil, List.map_cons, List.map_nil, List.flatten_cons,
    List.flatten_nil, List.take_nil, h21, h23, hi2, Option.some.injEq, ne_eq,
    reduceCtorEq, not_false_eq_true, if_true, if_false, ite_true, ite_false,
    List.cons_ne_nil, List.append_nil, List.nil_append,
    e1, e1b, e2, e3, e4, e4b, e5, e6, e7, e8, e9, e10, e11, e12, e13, e14, e15, e16,
    e17, e18, e19, e20, e21, e22, e23, e24, e25, e26, e27, e28, e29, e30,
    List.cons_append, List.append_assoc]
  simp

theorem nm_append (c : Char) (a b : PyStr) (ha : c ∉ a) (hb : c ∉ b) :
    c ∉ a ++ b := fun m => (List.mem_append.mp m).elim (fun h => ha h) (fun h => hb h)

theorem nm_cons (c d : Char) (t : PyStr) (hd : ¬ c = d) (ht : c ∉ t) :
    c ∉ d :: t := fun m => (List.mem_cons.mp m).elim hd (fun h => ht h)

theorem parseStepLine_strip_head_ne (c : Char) (X : PyStr)
    (hc1 : isPySpace c = false) (hc2 : ¬ c = '-') :
    parseStepLine (pyStrip (c :: X)) = none := by
  rw [pyStrip_cons_nonspace _ _ hc1]
  exact parseStepLine_head_ne _ _ hc2

theorem parse_build_roundtrip (br tm : PyStr) (N i1 i2 i3 : Nat)
    (d1 d2 d3 tk : PyStr)
    (hd1 : descOK d1) (hd2 : descOK d2) (hd3 : descOK d3)
    (htk : ticketOK tk) (htkne : tk ≠ [])
    (hbr : '\n' ∉ br) (htm : '\n' ∉ tm)
    (h12 : i1 ≠ i2) (h32 : i3 ≠ i2) (hi2 : i2 ≠ 0) :
    parse_state_comment (build_state_comment br N (some i2)
      [{ id := i1, description := d1, ticket := [], done := true, files := [] },
       { id := i2, description := d2, ticket := tk, done := false, files := [] },
       { id := i3, description := d3, ticket := [], done := false, files := [] }]
      [] [] none tm) =
    { iterations := 0, current_step := some (i2 : Int),
      plan_steps :=
        [{ id := i1, description := d1, ticket := [], done := true, files := [] },
         { id := i2, description := d2, ticket := tk, done := false, files := [] },
         { id := i3, description := d3, ticket := [], done := false, files := [] }] } := by
  obtain ⟨hne1, hnl1, harr1, hh1, hl1⟩ := hd1
  obtain ⟨hne2, hnl2, harr2, hh2, hl2⟩ := hd2
  obtain ⟨hne3, hnl3, harr3, hh3, hl3⟩ := hd3
  obtain ⟨hktnl, hktp⟩ := htk
  obtain ⟨a1, r1, rfl⟩ := List.exists_cons_of_ne_nil hne1
  obtain ⟨a2, r2, rfl⟩ := List.exists_cons_of_ne_nil hne2
  obtain ⟨a3, r3, rfl⟩ := List.exists_cons_of_ne_nil hne3
  obtain ⟨k0, ks, rfl⟩ := List.exists_cons_of_ne_nil htkne
  rw [build_lines br tm N i1 i2 i3 a1 a2 a3 k0 r1 r2 r3 ks
    (fun e => h12 e.symm) (fun e => h32 e.symm) hi2]
  have hnl1' : ¬ '\n' = a1 := fun e => hnl1 (by rw [← e]; exact List.mem_cons_self _ _)
  have hnl1r : '\n' ∉ r1 := fun m => hnl1 (List.mem_cons_of_mem a1 m)
  have hnl2' : ¬ '\n' = a2 := fun e => hnl2 (by rw [← e]; exact List.mem_cons_self _ _)
  have hnl2r : '\n' ∉ r2 := fun m => hnl2 (List.mem_cons_of_mem a2 m)
  have hnl3' : ¬ '\n' = a3 := fun e => hnl3 (by rw [← e]; exact List.mem_cons_self _ _)
  have hnl3r : '\n' ∉ r3 := fun m => hnl3 (List.mem_cons_of_mem a3 m)
  have hnlk' : ¬ '\n' = k0 := fun e => hktnl (by rw [← e]; exact List.mem_cons_self _ _)
  have hnlkr : '\n' ∉ ks := fun m => hktnl (List.mem_cons_of_mem k0 m)
  simp only [parse_state_comment]
  rw [pySplit_linesJoin _ ?hnl]
  case hnl =>
    intro l hl
    simp only [List.mem_cons, List.not_mem_nil, or_false] at hl
    rcases hl with rfl | rfl | rfl | rfl | rfl | rfl | rfl | rfl | rfl | rfl | rfl | rfl | rfl | rfl
    · exact nm_append _ _ _ (by decide) (nm_append _ _ _ hbr (by decide))
    · exact List.not_mem_nil _
    · decide
    · exact nm_cons _ _ _ (by decide)
        (nm_append _ _ _
          (nm_append _ _ _ (by decide)
            (nm_cons _ _ _ (by decide)
              (nm_append _ _ _ (by decide)
                (nm_append _ _ _ (toDec_no_newline i1) (by decide)))))
          hnl1)
    · exact nm_cons _ _ _ (by decide)
        (nm_append _ _ _
          (nm_append _ _ _ (by decide)
            (nm_append _ _ _ (toDec_no_newline i2)
              (nm_append _ _ _ (by decide)
                (nm_append _ _ _ hktnl (by decide)))))
          (nm_cons _ _ _ hnl2'
            (nm_append _ _ _ hnl2r (by decide))))
    · exact nm_cons _ _ _ (by decide)
        (nm_append _ _ _
          (nm_append _ _ _ (by decide)
            (nm_cons _ _ _ (by decide)
              (nm_append _ _ _ (by decide)
                (nm_append _ _ _ (toDec_no_newline i3) (by decide)))))
          hnl3)
    · exact List.not_mem_nil _
    · decide
    · decide
    · exact nm_append _ _ _ (by decide)
        (nm_append _ _ _ (toDec_no_newline N) (by decide))
    · exact nm_append _ _ _ (by decide)
        (nm_append _ _ _ (toDec_no_newline i2) (by decide))
    · exact nm_append _ _ _ (by decide) (nm_append _ _ _ htm (by decide))
    · exact List.not_mem_nil _
    · decide
  have hst4 : pyStrip ('-' :: ((pys " [" ++ ('x' :: (pys "] **" ++
      (toDec i1 ++ pys "**: ")))) ++ (a1 :: r1))) =
      '-' :: ((pys " [" ++ ('x' :: (pys "] **" ++ (toDec i1 ++ pys "**: ")))) ++
        (a1 :: r1)) :=
    pyStrip_line '-' _ _ (by decide) (by simp) hl1
  have hdl5 : isPySpace ((a2 :: (r2 ++ pys " ← current")).getLastD 'x') = false := by
    rw [List.getLastD_cons, getLastD_append_right _ _ _ (by decide)]
    rfl
  have hst5 : pyStrip ('-' :: ((pys " [ ] **" ++ (toDec i2 ++ (pys "** (" ++
      ((k0 :: ks) ++ pys "): ")))) ++ (a2 :: (r2 ++ pys " ← current")))) =
      '-' :: ((pys " [ ] **" ++ (toDec i2 ++ (pys "** (" ++ ((k0 :: ks) ++
        pys "): ")))) ++ (a2 :: (r2 ++ pys " ← current"))) :=
    pyStrip_line '-' _ _ (by decide) (by simp) hdl5
  have hst6 : pyStrip ('-' :: ((pys " [" ++ (' ' :: (pys "] **" ++
      (toDec i3 ++ pys "**: ")))) ++ (a3 :: r3))) =
      '-' :: ((pys " [" ++ (' ' :: (pys "] **" ++ (toDec i3 ++ pys "**: ")))) ++
        (a3 :: r3)) :=
    pyStrip_line '-' _ _ (by decide) (by simp) hl3
  have ht4 : ∀ acc : Nat × Option Int, tableRowStep acc ('-' :: ((pys " [" ++
      ('x' :: (pys "] **" ++ (toDec i1 ++ pys "**: ")))) ++ (a1 :: r1))) = acc :=
    fun acc => tableRowStep_head_ne acc _ '-' _ hst4 (by decide)
  have ht5 : ∀ acc : Nat × Option Int, tableRowStep acc ('-' :: ((pys " [ ] **" ++
      (toDec i2 ++ (pys "** (" ++ ((k0 :: ks) ++ pys "): ")))) ++
      (a2 :: (r2 ++ pys " ← current")))) = acc :=
    fun acc => tableRowStep_head_ne acc _ '-' _ hst5 (by decide)
  have ht6 : ∀ acc : Nat × Option Int, tableRowStep acc ('-' :: ((pys " [" ++
      (' ' :: (pys "] **" ++ (toDec i3 ++ pys "**: ")))) ++ (a3 :: r3))) = acc :=
    fun acc => tableRowStep_head_ne acc _ '-' _ hst6 (by decide)
  have htnil : ∀ acc : Nat × Option Int, tableRowStep acc [] = acc := fun _ => rfl
  have htplan : ∀ acc : Nat × Option Int, tableRowStep acc (pys "## Plan") = acc :=
    fun _ => rfl
  have htfv : ∀ acc : Nat × Option Int,
      tableRowStep acc (pys "| Field | Value |") = acc := fun _ => rfl
  have htdash : ∀ acc : Nat × Option Int,
      tableRowStep acc (pys "|-------|-------|") = acc := fun _ => rfl
  have htlog : ∀ acc : Nat × Option Int, tableRowStep acc (pys "**Log:**") = acc :=
    fun _ => rfl
  have hpnil : parseStepLine (pyStrip ([] : PyStr)) = none := rfl
  have hpplan : parseStepLine (pyStrip (pys "## Plan")) = none := rfl
  have hpfv : parseStepLine (pyStrip (pys "| Field | Value |")) = none := rfl
  have hpdash : parseStepLine (pyStrip (pys "|-------|-------|")) = none := rfl
  have hplog : parseStepLine (pyStrip (pys "**Log:**")) = none := rfl
  have hpit : parseStepLine (pyStrip (pys "| Iterations | " ++
      (toDec N ++ pys " |"))) = none := by
    rw [show pys "| Iterations | " ++ (toDec N ++ pys " |") =
        '|' :: (pys " Iterations | " ++ (toDec N ++ pys " |")) from by
      rw [show pys "| Iterations | " = '|' :: pys " Iterations | " from rfl]
      simp]
    exact parseStepLine_strip_head_ne _ _ (by decide) (by decide)
  have hpcs : parseStepLine (pyStrip (pys "| Current step | " ++
      (toDec i2 ++ pys " |"))) = none := by
    rw [show pys "| Current step | " ++ (toDec i2 ++ pys " |") =
        '|' :: (pys " Current step | " ++ (toDec i2 ++ pys " |")) from by
      rw [show pys "| Current step | " = '|' :: pys " Current step | " from rfl]
      simp]
    exact parseStepLine_strip_head_ne _ _ (by decide) (by decide)
  have hplr : parseStepLine (pyStrip (pys "| Last run | " ++
      (tm ++ pys " |"))) = none := by
    rw [show pys "| Last run | " ++ (tm ++ pys " |") =
        '|' :: (pys " Last run | " ++ (tm ++ pys " |")) from by
      rw [show pys "| Last run | " = '|' :: pys " Last run | " from rfl]
      simp]
    exact parseStepLine_strip_head_ne _ _ (by decide) (by decide)
  have hp4 := parse_line_notick 'x' (Or.inr rfl) i1 a1 r1 harr1
    (by simpa using hh1) hl1
  have hp5 := parse_line_cur_tick i2 k0 ks hktp a2 r2 harr2
    (by simpa using hh2) hl2
  have hp6 := parse_line_notick ' ' (Or.inl rfl) i3 a3 r3 harr3
    (by simpa using hh3) hl3
  simp only [List.cons_append] at hst5 ht5 hp5
  simp only [List.cons_append, List.nil_append, List.foldl_cons, List.foldl_nil,
    List.filterMap_cons, List.filterMap_nil,
    tableRowStep_header, htnil, htplan, htfv, htdash, htlog, ht4, ht5, ht6,
    tableRowStep_iterations_row, tableRowStep_current_row, tableRowStep_lastrun_row,
    parseStepLine_header, hpnil, hpplan, hpfv, hpdash, hplog, hpit, hpcs, hplr,
    hp4, hp5, hp6]
  rfl

/-- C4: for a plan of 3 steps (one done, two pending, one step carrying a
parenthesized owning-ticket id, and one pending step marked as current),
building the Progress Document with `build_state_comment` and parsing it
back with `parse_state_comment` reproduces the done flags, the ticket
(owning-unit) ids and the current-step pointer.  The side conditions are
the natural well-formedness of the serialised strings: descriptions are
non-empty, single-line, arrow-free and not space-fringed, the ticket id
is non-empty, single-line and free of `)`, branch name and timestamp are
single-line, the step ids are distinct and the current id is nonzero
(`current_step or '-'` renders 0 as `-`). -/
theorem claim_C4 (br tm : PyStr) (N i1 i2 i3 : Nat) (d1 d2 d3 tk : PyStr)
    (hd1 : descOK d1) (hd2 : descOK d2) (hd3 : descOK d3)
    (htk : ticketOK tk) (htkne : tk ≠ [])
    (hbr : '\n' ∉ br) (htm : '\n' ∉ tm)
    (h12 : i1 ≠ i2) (h32 : i3 ≠ i2) (hi2 : i2 ≠ 0) :
    (parse_state_comment (build_state_comment br N (some i2)
        [{ id := i1, description := d1, ticket := [], done := true, files := [] },
         { id := i2, description := d2, ticket := tk, done := false, files := [] },
         { id := i3, description := d3, ticket := [], done := false, files := [] }]
        [] [] none tm)).plan_steps.map (fun s => (s.done, s.ticket)) =
      [(true, []), (false, tk), (false, [])] ∧
    (parse_state_comment (build_state_comment br N (some i2)
        [{ id := i1, description := d1, ticket := [], done := true, files := [] },
         { id := i2, description := d2, ticket := tk, done := false, files := [] },
         { id := i3, description := d3, ticket := [], done := false, files := [] }]
        [] [] none tm)).current_step = some (i2 : Int) := by
  rw [parse_build_roundtrip br tm N i1 i2 i3 d1 d2 d3 tk hd1 hd2 hd3 htk htkne
    hbr htm h12 h32 hi2]
  exact ⟨rfl, rfl⟩

/-- C4 witness: a concrete 3-step plan round-tripped through build and
parse. -/
theorem claim_C4_witness :
    descOK (pys "implement the parser") ∧ ticketOK (pys "EV-7") ∧
    ((parse_state_comment (build_state_comment (pys "lisa/issue-9") 2 (some 2)
        [{ id := 1, description := pys "write tests", ticket := [], done := true,
           files := [] },
         { id := 2, description := pys "implement the parser", ticket := pys "EV-7",
           done := false, files := [] },
         { id := 3, description := pys "update docs", ticket := [], done := false,
           files := [] }]
        [] [] none (pys "2024-06-01 12:00"))).plan_steps.map
          (fun s => (s.done, s.ticket)) =
      [(true, []), (false, pys "EV-7"), (false, [])] ∧
     (parse_state_comment (build_state_comment (pys "lisa/issue-9") 2 (some 2)
        [{ id := 1, description := pys "write tests", ticket := [], done := true,
           files := [] },
         { id := 2, description := pys "implement the parser", ticket := pys "EV-7",
           done := false, files := [] },
         { id := 3, description := pys "update docs", ticket := [], done := false,
           files := [] }]
        [] [] none (pys "2024-06-01 12:00"))).current_step = some (2 : Int)) :=
  ⟨by decide, by decide,
   claim_C4 (pys "lisa/issue-9") (pys "2024-06-01 12:00") 2 1 2 3
     (pys "write tests") (pys "implement the parser") (pys "update docs") (pys "EV-7")
     (by decide) (by decide) (by decide) (by decide) (by decide) (by decide)
     (by decide) (by decide) (by decide) (by decide)⟩

/-- C5 counterexample: a Progress Document built with iteration count
`N = 5` parses back with `iterations = 0`, not 5: the parser searches
`line.split("|")[2]` — a segment that contains no `|` at all — for the
pipe-delimited pattern `\|\s*(\d+)\s*\|`, which therefore never
matches.  The Current-step row of the same document is recovered. -/
theorem claim_C5_counterexample :
    (parse_state_comment (build_state_comment (pys "lisa/issue-9") 5 (some 2)
        [{ id := 1, description := pys "alpha", ticket := [], done := true,
           files := [] },
         { id := 2, description := pys "beta", ticket := pys "EV-7", done := false,
           files := [] },
         { id := 3, description := pys "gamma", ticket := [], done := false,
           files := [] }]
        [] [] none (pys "2024-06-01 12:00"))).iterations = 0 ∧
    (0 : Nat) ≠ 5 ∧
    (parse_state_comment (build_state_comment (pys "lisa/issue-9") 5 (some 2)
        [{ id := 1, description := pys "alpha", ticket := [], done := true,
           files := [] },
         { id := 2, description := pys "beta", ticket := pys "EV-7", done := false,
           files := [] },
         { id := 3, description := pys "gamma", ticket := [], done := false,
           files := [] }]
        [] [] none (pys "2024-06-01 12:00"))).current_step = some (2 : Int) := by
  have h := parse_build_roundtrip (pys "lisa/issue-9") (pys "2024-06-01 12:00") 5 1 2 3
    (pys "alpha") (pys "beta") (pys "gamma") (pys "EV-7")
    (by decide) (by decide) (by decide) (by decide) (by decide) (by decide)
    (by decide) (by decide) (by decide) (by decide)
  refine ⟨by rw [h], by decide, ?_⟩
  rw [h]
  norm_num

/-- C5 amended: for every Progress Document produced by
`build_state_comment` with iteration count `N ≥ 1` and current step
`i2` (over the 3-step plan family of C4), `parse_state_comment`
recovers the Current-step row (`current_step = i2`) but never the
Iterations row: the iterations field is always 0 — in particular not
`N` — because the searched `split("|")[2]` segment is pipe-free. -/
theorem claim_C5_amended (br tm : PyStr) (N i1 i2 i3 : Nat) (d1 d2 d3 tk : PyStr)
    (hd1 : descOK d1) (hd2 : descOK d2) (hd3 : descOK d3)
    (htk : ticketOK tk) (htkne : tk ≠ [])
    (hbr : '\n' ∉ br) (htm : '\n' ∉ tm)
    (h12 : i1 ≠ i2) (h32 : i3 ≠ i2) (hi2 : i2 ≠ 0) (hN : 1 ≤ N) :
    (parse_state_comment (build_state_comment br N (some i2)
        [{ id := i1, description := d1, ticket := [], done := true, files := [] },
         { id := i2, description := d2, ticket := tk, done := false, files := [] },
         { id := i3, description := d3, ticket := [], done := false, files := [] }]
        [] [] none tm)).iterations = 0 ∧
    (parse_state_comment (build_state_comment br N (some i2)
        [{ id := i1, description := d1, ticket := [], done := true, files := [] },
         { id := i2, description := d2, ticket := tk, done := false, files := [] },
         { id := i3, description := d3, ticket := [], done := false, files := [] }]
        [] [] none tm)).iterations ≠ N ∧
    (parse_state_comment (build_state_comment br N (some i2)
        [{ id := i1, description := d1, ticket := [], done := true, files := [] },
         { id := i2, description := d2, ticket := tk, done := false, files := [] },
         { id := i3, description := d3, ticket := [], done := false, files := [] }]
        [] [] none tm)).current_step = some (i2 : Int) := by
  have h := parse_build_roundtrip br tm N i1 i2 i3 d1 d2 d3 tk hd1 hd2 hd3 htk htkne
    hbr htm h12 h32 hi2
  refine ⟨by rw [h], ?_, by rw [h]⟩
  rw [h]
  simpa using fun e => by omega

/-- C5 witness: a concrete document built with iteration count 7 and
current step 4. -/
theorem claim_C5_witness :
    descOK (pys "collect metrics") ∧ 1 ≤ 7 ∧
    ((parse_state_comment (build_state_comment (pys "lisa/issue-12") 7 (some 4)
        [{ id := 2, description := pys "collect metrics", ticket := [], done := true,
           files := [] },
         { id := 4, description := pys "render charts", ticket := pys "EV-31",
           done := false, files := [] },
         { id := 9, description := pys "ship report", ticket := [], done := false,
           files := [] }]
        [] [] none (pys "2024-07-02 09:30"))).iterations = 0 ∧
     (parse_state_comment (build_state_comment (pys "lisa/issue-12") 7 (some 4)
        [{ id := 2, description := pys "collect metrics", ticket := [], done := true,
           files := [] },
         { id := 4, description := pys "render charts", ticket := pys "EV-31",
           done := false, files := [] },
         { id := 9, description := pys "ship report", ticket := [], done := false,
           files := [] }]
        [] [] none (pys "2024-07-02 09:30"))).iterations ≠ 7 ∧
     (parse_state_comment (build_state_comment (pys "lisa/issue-12") 7 (some 4)
        [{ id := 2, description := pys "collect metrics", ticket := [], done := true,
           files := [] },
         { id := 4, description := pys "render charts", ticket := pys "EV-31",
           done := false, files := [] },
         { id := 9, description := pys "ship report", ticket := [], done := false,
           files := [] }]
        [] [] none (pys "2024-07-02 09:30"))).current_step = some (4 : Int)) :=
  ⟨by decide, by decide,
   claim_C5_amended (pys "lisa/issue-12") (pys "2024-07-02 09:30") 7 2 4 9
     (pys "collect metrics") (pys "render charts") (pys "ship report") (pys "EV-31")
     (by decide) (by decide) (by decide) (by decide) (by decide) (by decide)
     (by decide) (by decide) (by decide) (by decide) (by decide)⟩
